import Mathlib

/-!
# Verification of the passion-os schema generator

Shallow embedding of `tools/schema-generator/resolve_seed_references.py` and
`tools/schema-generator/generate_all.py` (validation, DDL/struct field
rendering, and seed emission), together with proofs about the seed-reference
resolution algorithm.

JSON scalar values are modelled by `Val`; Python `dict`s (which preserve
insertion order and have unique keys) are modelled by association lists with
first-occurrence lookup and in-place update.  Python's `uuid.uuid5` is
modelled byte-exactly via an executable SHA-1.
-/

namespace PassionOS

/-- JSON/Python scalar values occurring in seed records.  `vnull` doubles as
Python's `None` (as returned by `dict.get` on a missing key). -/
inductive Val where
  | vnull : Val
  | vbool : Bool → Val
  | vint : Int → Val
  | vstr : String → Val
deriving DecidableEq, Repr, Inhabited

/-- Python truthiness (`bool(v)`) for the modelled scalars. -/
def pyTruthy : Val → Bool
  | .vnull => false
  | .vbool b => b
  | .vint n => n != 0
  | .vstr s => s != ""

/-- Python `str(v)` for the modelled scalars. -/
def pyStr : Val → String
  | .vnull => "None"
  | .vbool b => if b then "True" else "False"
  | .vint n => toString n
  | .vstr s => s

/-- Python `str.startswith` (core's `String.startsWith` recurses on byte
positions and does not reduce in the kernel, so the character-list form is
used throughout). -/
def pyStartsWith (s pre : String) : Bool := pre.data.isPrefixOf s.data

/-- Replace every non-overlapping occurrence of `pat` left to right,
consuming one unit of fuel per emitted position. -/
def replaceLoop (pat rep : List Char) : Nat → List Char → List Char
  | _, [] => []
  | 0, l => l
  | n + 1, a :: t =>
      if pat.isPrefixOf (a :: t) then
        rep ++ replaceLoop pat rep n ((a :: t).drop pat.length)
      else a :: replaceLoop pat rep n t

/-- Python `str.replace` for a nonempty pattern (every call site in the
generator uses the literal patterns `"name="` and `"'"`). -/
def pyReplace (s pat rep : String) : String :=
  String.mk (replaceLoop pat.data rep.data s.data.length s.data)

/-- ASCII uppercase of one character. -/
def pyCharUpper (c : Char) : Char :=
  if 97 ≤ c.toNat && c.toNat ≤ 122 then Char.ofNat (c.toNat - 32) else c

/-- Python `str.upper` on ASCII strings (table names). -/
def pyUpper (s : String) : String := String.mk (s.data.map pyCharUpper)

/-- Python `==` between modelled scalars (`True == 1`, `False == 0`;
no coercion between strings and other types). -/
def pyEq : Val → Val → Bool
  | .vnull, .vnull => true
  | .vbool a, .vbool b => a == b
  | .vint a, .vint b => a == b
  | .vstr a, .vstr b => a == b
  | .vbool a, .vint b => (if a then (1 : Int) else 0) == b
  | .vint a, .vbool b => a == (if b then (1 : Int) else 0)
  | _, _ => false

section AssocOps

variable {κ α : Type} [DecidableEq κ]

/-- `d[k]` / `d.get(k)`: value at the first occurrence of key `k`. -/
def aget : List (κ × α) → κ → Option α
  | [], _ => none
  | (k', v) :: rest, k => if k' = k then some v else aget rest k

/-- `k in d`. -/
def ahas (l : List (κ × α)) (k : κ) : Bool := (aget l k).isSome

/-- `d[k] = v`: overwrite the value at `k` if present (keeping its
position, as a Python dict does), otherwise append the binding. -/
def aset : List (κ × α) → κ → α → List (κ × α)
  | [], k, v => [(k, v)]
  | (k', v') :: rest, k, v =>
      if k' = k then (k, v) :: rest else (k', v') :: aset rest k v

/-- `del d[k]`: drop the binding of `k`. -/
def adel : List (κ × α) → κ → List (κ × α)
  | [], _ => []
  | (k', v') :: rest, k =>
      if k' = k then adel rest k else (k', v') :: adel rest k

end AssocOps

/-- A seed record: an insertion-ordered JSON object. -/
abbrev Record := List (String × Val)

/-- `record.get(k)` (missing key ↦ Python `None` ↦ `vnull`). -/
def pyGet (r : Record) (k : String) : Val := (aget r k).getD .vnull

/-! ## SHA-1 and UUIDv5

`resolve_seed_references.py` and `generate_all.py` derive seed identifiers
with `uuid.uuid5(SEED_NAMESPACE, f"{namespace}:{name}")`.  `uuid.uuid5` is
Python standard library: per RFC 4122 it is the SHA-1 of the namespace bytes
followed by the UTF-8 encoded name, truncated to 16 bytes with the version
nibble forced to 5 and the variant bits to `10`.  The functions below
implement exactly that; pinned-value lemmas further down check the model
against the standard SHA-1 test vectors and against values produced by
CPython's `uuid.uuid5`. -/

/-- Truncate to a 32-bit word. -/
def w32 (n : Nat) : Nat := n % 4294967296

/-- Rotate a 32-bit word left by `b` bits (`1 ≤ b ≤ 31`). -/
def rotl (b n : Nat) : Nat := ((n <<< b) % 4294967296) ||| (n >>> (32 - b))

/-- Big-endian 8-byte encoding of a message bit length. -/
def be64 (n : Nat) : List Nat :=
  [(n >>> 56) % 256, (n >>> 48) % 256, (n >>> 40) % 256, (n >>> 32) % 256,
   (n >>> 24) % 256, (n >>> 16) % 256, (n >>> 8) % 256, n % 256]

/-- SHA-1 message padding: `0x80`, zeros to 56 mod 64, then the bit length. -/
def sha1pad (msg : List Nat) : List Nat :=
  let len := msg.length
  let z := (119 - len % 64) % 64
  msg ++ [128] ++ List.replicate z 0 ++ be64 (len * 8)

/-- Big-endian word from a list of bytes. -/
def bytesToWord (l : List Nat) : Nat := l.foldl (fun a b => a * 256 + b) 0

/-- The 16 initial 32-bit words of a 64-byte chunk. -/
def chunkWords (chunk : List Nat) : List Nat :=
  (List.range 16).map (fun j => bytesToWord ((chunk.drop (4 * j)).take 4))

/-- Extend 16 words to the 80-word SHA-1 message schedule. -/
def extendWords (ws : List Nat) : List Nat :=
  (List.range 64).foldl
    (fun acc i =>
      acc ++ [rotl 1 (acc.getD (i + 13) 0 ^^^ acc.getD (i + 8) 0 ^^^
                      acc.getD (i + 2) 0 ^^^ acc.getD i 0)])
    ws

/-- One SHA-1 compression round state. -/
abbrev Sha1State := Nat × Nat × Nat × Nat × Nat

/-- Process one 64-byte chunk. -/
def sha1Chunk (h : Sha1State) (chunk : List Nat) : Sha1State :=
  let ws := extendWords (chunkWords chunk)
  let s :=
    (List.range 80).foldl
      (fun st t =>
        let a := st.1
        let b := st.2.1
        let c := st.2.2.1
        let d := st.2.2.2.1
        let e := st.2.2.2.2
        let f :=
          if t < 20 then (b &&& c) ||| ((4294967295 - b) &&& d)
          else if t < 40 then b ^^^ c ^^^ d
          else if t < 60 then (b &&& c) ||| (b &&& d) ||| (c &&& d)
          else b ^^^ c ^^^ d
        let k :=
          if t < 20 then 1518500249
          else if t < 40 then 1859775393
          else if t < 60 then 2400959708
          else 3395469782
        let temp := w32 (rotl 5 a + f + e + k + ws.getD t 0)
        (temp, a, rotl 30 b, c, d))
      h
  (w32 (h.1 + s.1), w32 (h.2.1 + s.2.1), w32 (h.2.2.1 + s.2.2.1),
   w32 (h.2.2.2.1 + s.2.2.2.1), w32 (h.2.2.2.2 + s.2.2.2.2))

/-- Big-endian bytes of a 32-bit word. -/
def wordBytes (n : Nat) : List Nat :=
  [(n >>> 24) % 256, (n >>> 16) % 256, (n >>> 8) % 256, n % 256]

/-- SHA-1 digest (20 bytes) of a byte string. -/
def sha1 (msg : List Nat) : List Nat :=
  let padded := sha1pad msg
  let nChunks := padded.length / 64
  let chunks := (List.range nChunks).map (fun i => (padded.drop (64 * i)).take 64)
  let h := chunks.foldl sha1Chunk
    (1732584193, 4023233417, 2562383102, 271733878, 3285377520)
  wordBytes h.1 ++ wordBytes h.2.1 ++ wordBytes h.2.2.1 ++
    wordBytes h.2.2.2.1 ++ wordBytes h.2.2.2.2

/-- UTF-8 encoding of one code point. -/
def utf8Char (c : Char) : List Nat :=
  let n := c.toNat
  if n < 128 then [n]
  else if n < 2048 then [192 + n / 64, 128 + n % 64]
  else if n < 65536 then [224 + n / 4096, 128 + n / 64 % 64, 128 + n % 64]
  else [240 + n / 262144, 128 + n / 4096 % 64, 128 + n / 64 % 64, 128 + n % 64]

/-- UTF-8 bytes of a string (Python `s.encode('utf-8')`). -/
def strBytes (s : String) : List Nat := s.data.flatMap utf8Char

/-- Lowercase hex digit. -/
def hexDigit (n : Nat) : Char :=
  if n < 10 then Char.ofNat (48 + n) else Char.ofNat (87 + n)

/-- Two lowercase hex digits of a byte. -/
def hexByte (n : Nat) : List Char := [hexDigit (n / 16 % 16), hexDigit (n % 16)]

/-- Canonical lowercase-hyphenated rendering of a 16-byte name-based UUID
digest, with the version nibble forced to 5 and the variant bits to `10`
(RFC 4122 §4.3). -/
def uuidFormat (d : List Nat) : String :=
  let b := fun i => d.getD i 0
  let b6 := b 6 % 16 + 80
  let b8 := b 8 % 64 + 128
  String.mk
    (hexByte (b 0) ++ (hexByte (b 1) ++ (hexByte (b 2) ++ (hexByte (b 3) ++ (['-'] ++
     (hexByte (b 4) ++ (hexByte (b 5) ++ (['-'] ++
     (hexByte b6 ++ (hexByte (b 7) ++ (['-'] ++
     (hexByte b8 ++ (hexByte (b 9) ++ (['-'] ++
     (hexByte (b 10) ++ (hexByte (b 11) ++ (hexByte (b 12) ++ (hexByte (b 13) ++
     (hexByte (b 14) ++ hexByte (b 15))))))))))))))))))))

/-- RFC 4122 name-based SHA-1 UUID (Python `uuid.uuid5`), rendered in the
canonical lowercase-hyphenated form `str(uuid)` used by the generator. -/
def uuid5 (nsBytes : List Nat) (name : String) : String :=
  uuidFormat (sha1 (nsBytes ++ strBytes name))

/-- `SEED_NAMESPACE = uuid.UUID('11111111-1111-1111-1111-111111111111')`,
as its 16 bytes. -/
def SEED_NAMESPACE_BYTES : List Nat := List.replicate 16 17

/-- `generate_deterministic_uuid` from `resolve_seed_references.py` (the
method `SchemaGenerator._generate_deterministic_uuid` in `generate_all.py`
is the identical computation):
`str(uuid.uuid5(SEED_NAMESPACE, f"{namespace}:{name}"))`. -/
def generate_deterministic_uuid (ns name : String) : String :=
  uuid5 SEED_NAMESPACE_BYTES (ns ++ ":" ++ name)

/-! ## Schema data model

Mirrors the JSON shapes consumed by the two scripts.  `unique_key` may be
absent, a single column name, or a list of column names, exactly the three
cases the Python code distinguishes with `isinstance`. -/

/-- One entry of a seed definition's `references` mapping. -/
structure RefDef where
  ref_table : String
  ref_column : String
  target_column : String
deriving DecidableEq, Repr

/-- A seed definition's `unique_key` (absent / string / list). -/
inductive UKey where
  | noKey : UKey
  | single : String → UKey
  | multi : List String → UKey
deriving DecidableEq, Repr

/-- Python truthiness of the raw `unique_key` value
(`None`, `""` and `[]` are falsy). -/
def ukTruthy : UKey → Bool
  | .noKey => false
  | .single s => s != ""
  | .multi l => !l.isEmpty

/-- One table's seed definition (`seeds[table]` in `schema.json`).
`records` defaults to `[]` and `references` to `{}` when absent, matching
the `.get(..., default)` accesses in the code. -/
structure SeedDef where
  unique_key : UKey
  records : List Record
  references : List (String × RefDef)
deriving DecidableEq, Repr

/-- The seeds section: table name ↦ seed definition, insertion ordered. -/
abbrev Seeds := List (String × SeedDef)

/-- A per-table lookup built by the resolver's first pass.  In
`resolve_seed_references.py` the keys are raw Python values for a
single-column `unique_key` (line 68: `lookup_tables[table_name][lookup_key]`)
and `f"{key_col}={value}"` strings for a list-valued one (line 64), so the
key type is `Val`. -/
abbrev Lookup := List (Val × Val)

/-- The schema as seen by `resolve_seed_references`: its `seeds` section
plus everything else (`version`, `tables`, ... — read but never written),
kept abstractly as `rest`. -/
structure RSchema where
  seeds : Seeds
  rest : List (String × Val)
deriving DecidableEq, Repr

/-! ## `resolve_seed_references` (resolve_seed_references.py, lines 29-137) -/

/-- The hardcoded first-pass table list (line 38). -/
def fourTables : List String :=
  ["workouts", "exercise_definitions", "workout_sections", "workout_exercises"]

/-- The identifier derived for a record without an explicit `id`
(lines 51-55): for a list-valued `unique_key` the UUID of
`'|'.join(str(record.get(k, '')) for k in unique_key)`, otherwise the UUID
of `str(i)` where `i` is the record's position. -/
def derivedRecordId (tname : String) (uk : UKey) (i : Nat) (r : Record) : String :=
  match uk with
  | .multi cols =>
      generate_deterministic_uuid tname
        (String.intercalate "|" (cols.map (fun k => pyStr ((aget r k).getD (.vstr "")))))
  | _ => generate_deterministic_uuid tname (toString i)

/-- Lines 50-56: `record['id'] = record_id` when `'id' not in record`. -/
def assignId (tname : String) (uk : UKey) (i : Nat) (r : Record) : Record :=
  if ahas r "id" then r else aset r "id" (.vstr (derivedRecordId tname uk i r))

/-- Lines 58-68: add this record's lookup entries.  List-valued key: one
`"{key_col}={value}"` entry per truthy component.  String key: the raw
value itself is the dict key (no `"col="` prefix).  Values map to
`record.get('id')`. -/
def addEntries (uk : UKey) (tbl : Lookup) (r : Record) : Lookup :=
  match uk with
  | .multi cols =>
      cols.foldl
        (fun tb kc =>
          let lk := pyGet r kc
          if pyTruthy lk then
            aset tb (.vstr (kc ++ "=" ++ pyStr lk)) (pyGet r "id")
          else tb)
        tbl
  | .single uks =>
      let lk := pyGet r uks
      if pyTruthy lk then aset tbl lk (pyGet r "id") else tbl
  | .noKey => tbl

/-- The `for i, record in enumerate(records)` loop of pass 1 (lines 48-68):
assign identifiers and thread the lookup dict through the records. -/
def pass1Loop (tname : String) (uk : UKey) : Nat → Lookup → List Record → List Record × Lookup
  | _, tbl, [] => ([], tbl)
  | i, tbl, r :: rs =>
      let r2 := assignId tname uk i r
      let tbl2 := addEntries uk tbl r2
      let p := pass1Loop tname uk (i + 1) tbl2 rs
      (r2 :: p.1, p.2)

/-- Pass 1 for one table (lines 42-68). -/
def pass1Table (tname : String) (sd : SeedDef) : SeedDef × Lookup :=
  let p := pass1Loop tname sd.unique_key 0 [] sd.records
  ({ sd with records := p.1 }, p.2)

/-- One iteration of the pass-1 table loop (lines 38-40: absent tables are
skipped and get no lookup entry). -/
def pass1Step (acc : Seeds × List (String × Lookup)) (t : String) :
    Seeds × List (String × Lookup) :=
  match aget acc.1 t with
  | none => acc
  | some sd =>
      let p := pass1Table t sd
      (aset acc.1 t p.1, aset acc.2 t p.2)

/-- Pass 1 over the four hardcoded tables (lines 35-68). -/
def pass1 (seeds : Seeds) : Seeds × List (String × Lookup) :=
  fourTables.foldl pass1Step (seeds, [])

/-- The scan `for lookup_key, id in lookup_tables[t].items(): if
lookup_key.startswith('name='): ...` (lines 82-87, 101-106, 113-118).
A non-string dict key would make `.startswith` raise `AttributeError`,
modelled as an error.  The first entry whose stripped key equals the target
wins (`break`); note `.replace('name=', '')` removes every occurrence. -/
def scanNameLookup : Lookup → Val → Except String (Option Val)
  | [], _ => .ok none
  | (k, rid) :: rest, target =>
      match k with
      | .vstr s =>
          if pyStartsWith s "name=" then
            if target = .vstr (pyReplace s "name=" "") then .ok (some rid)
            else scanNameLookup rest target
          else scanNameLookup rest target
      | _ => .error "AttributeError: startswith"

/-- Resolution of one `*_name` pseudo-field into its `*_id` column (the
`workout_name` blocks at lines 78-90 and 98-107 and the `exercise_name`
block at lines 110-119 are three copies of this shape): when the
pseudo-field is present, scan the referenced table's lookup (if that table
has one), set the target column on a hit, and delete the pseudo-field
unconditionally. -/
def resolveNameField (lk : Option Lookup) (fieldName targetName : String)
    (r : Record) : Except String Record :=
  if ahas r fieldName then
    match lk with
    | some tbl =>
        match scanNameLookup tbl (pyGet r fieldName) with
        | .error e => .error e
        | .ok (some rid) => .ok (adel (aset r targetName rid) fieldName)
        | .ok none => .ok (adel r fieldName)
    | none => .ok (adel r fieldName)
  else .ok r

/-- The `section_name` block (lines 122-135): only when both
`section_name` and `workout_id` are present, find the first
`workout_sections` record matching on `name` and `workout_id`, set
`section_id` from it on a hit, and delete `section_name`. -/
def resolveSectionField (wsRecs : List Record) (r : Record) : Record :=
  if ahas r "section_name" && ahas r "workout_id" then
    let section_name := pyGet r "section_name"
    let workout_id := pyGet r "workout_id"
    let r1 :=
      match wsRecs.find? (fun ws =>
          pyEq (pyGet ws "name") section_name &&
          pyEq (pyGet ws "workout_id") workout_id) with
      | some ws => aset r "section_id" (pyGet ws "id")
      | none => r
    adel r1 "section_name"
  else r

/-- Pass 2 for one `workout_sections` record (lines 76-90). -/
def pass2WSRecord (wlk : Option Lookup) (r : Record) : Except String Record :=
  resolveNameField wlk "workout_name" "workout_id" r

/-- Pass 2 for one `workout_exercises` record (lines 96-135): resolve
`workout_name`, then `exercise_name`, then `section_name`. -/
def pass2WERecord (wlk elk : Option Lookup) (wsRecs : List Record)
    (r : Record) : Except String Record :=
  match resolveNameField wlk "workout_name" "workout_id" r with
  | .error e => .error e
  | .ok r1 =>
      match resolveNameField elk "exercise_name" "exercise_id" r1 with
      | .error e => .error e
      | .ok r2 => .ok (resolveSectionField wsRecs r2)

/-- Map a record transformation over a table's records, stopping at the
first raised exception (the Python loop mutates in place, but an exception
aborts the whole run, so no partial output is observable). -/
def mapRecords (f : Record → Except String Record) :
    List Record → Except String (List Record)
  | [] => .ok []
  | r :: rs =>
      match f r with
      | .error e => .error e
      | .ok r2 =>
          match mapRecords f rs with
          | .error e => .error e
          | .ok rs2 => .ok (r2 :: rs2)

/-- Apply a per-record pass-2 transformation to one table of the seeds
(lines 71-74, 92-94: tables absent from `seeds` are skipped). -/
def pass2Table (f : Record → Except String Record) (seeds : Seeds)
    (t : String) : Except String Seeds :=
  match aget seeds t with
  | some sd => (mapRecords f sd.records).map
      (fun recs => aset seeds t { sd with records := recs })
  | none => .ok seeds

/-- `resolve_seed_references(schema)` (lines 29-137).  Returns the schema
with its seeds resolved, or the raised exception. -/
def resolve_seed_references (schema : RSchema) : Except String RSchema :=
  if schema.seeds.isEmpty then .ok schema
  else
    let p := pass1 schema.seeds
    match pass2Table (pass2WSRecord (aget p.2 "workouts")) p.1 "workout_sections" with
    | .error e => .error e
    | .ok seeds2 =>
        let wsRecs :=
          match aget seeds2 "workout_sections" with
          | some w => w.records
          | none => []
        match pass2Table
            (pass2WERecord (aget p.2 "workouts") (aget p.2 "exercise_definitions") wsRecs)
            seeds2 "workout_exercises" with
        | .error e => .error e
        | .ok seeds3 => .ok { schema with seeds := seeds3 }

/-! ## `generate_all.py`: schema model, validator, emitters -/

/-- A field definition (`tables.*.fields.*`).  `nullable` and `primary`
model the truthiness of the optional JSON booleans (`field_def.get(...)`);
`default` is the optional verbatim `DEFAULT` expression. -/
structure FieldDef where
  type : Option String
  nullable : Bool := false
  primary : Bool := false
  default : Option String := none
deriving DecidableEq, Repr

/-- One entry of `type_mappings`: the per-target native type strings. -/
structure TypeMapping where
  rust : String
  typescript : String
  postgres : String
deriving DecidableEq, Repr

/-- A table definition.  The three keys the validator checks are optional
at this level. -/
structure TableDef where
  fields : Option (List (String × FieldDef))
  rust_type : Option String
  ts_type : Option String
deriving DecidableEq, Repr

/-- The loaded `schema.json` as `generate_all.py` sees it. -/
structure RawSchema where
  version : Option String
  tables : Option (List (String × TableDef))
  type_mappings : Option (List (String × TypeMapping))
  seeds : Seeds
deriving DecidableEq, Repr

/-- The seed-validation loop of `validate_schema` (lines 212-225): seeds
must reference existing tables and their record columns (reference
pseudo-fields excepted) must exist in the table's field set; only the first
unknown column of each record is reported (`break`).  Indexing
`schema['tables'][seed_table]['fields']` raises `KeyError` when the seeded
table has no `fields` key, modelled as an error. -/
def seedValidationErrors (tables : List (String × TableDef)) :
    Seeds → Except String (List String)
  | [] => .ok []
  | (st, sd) :: rest =>
      match aget tables st with
      | none =>
          (seedValidationErrors tables rest).map
            (fun es => ("Seed '" ++ st ++ "': table not found in schema") :: es)
      | some td =>
          match td.fields with
          | none => .error "KeyError: 'fields'"
          | some table_fields =>
              let refFields := sd.references.map (fun p => p.1)
              let recErrs := sd.records.foldl
                (fun es r =>
                  match r.find? (fun p =>
                      !refFields.contains p.1 && !ahas table_fields p.1) with
                  | some p =>
                      es ++ ["Seed '" ++ st ++ "': column '" ++ p.1 ++
                             "' not in table schema"]
                  | none => es) []
              (seedValidationErrors tables rest).map (fun es => recErrs ++ es)

/-- `validate_schema` (lines 181-227).  Note the early `return errors` when
`tables` or `type_mappings` is missing, and the per-table `continue` when
`fields` is missing. -/
def validate_schema (s : RawSchema) : Except String (List String) :=
  let errs0 := if s.version.isSome then [] else ["Missing 'version' field"]
  match s.tables with
  | none => .ok (errs0 ++ ["Missing 'tables' field"])
  | some tables =>
      match s.type_mappings with
      | none => .ok (errs0 ++ ["Missing 'type_mappings' field"])
      | some tms =>
          let tableErrs := tables.foldl
            (fun es (p : String × TableDef) =>
              let tname := p.1
              let td := p.2
              match td.fields with
              | none => es ++ ["Table '" ++ tname ++ "': missing 'fields'"]
              | some flds =>
                  let es1 := if td.rust_type.isSome then es
                    else es ++ ["Table '" ++ tname ++ "': missing 'rust_type'"]
                  let es2 := if td.ts_type.isSome then es1
                    else es1 ++ ["Table '" ++ tname ++ "': missing 'ts_type'"]
                  flds.foldl
                    (fun e2 (q : String × FieldDef) =>
                      match q.2.type with
                      | none => e2 ++ ["Table '" ++ tname ++ "'." ++ q.1 ++
                                       ": missing 'type'"]
                      | some ft =>
                          if ahas tms ft then e2
                          else e2 ++ ["Table '" ++ tname ++ "'." ++ q.1 ++
                                      ": unknown type '" ++ ft ++ "'"]) es2)
            []
          (seedValidationErrors tables s.seeds).map
            (fun ses => errs0 ++ tableErrs ++ ses)

/-- `format_sql_value` (lines 163-175) on the modelled scalars (its
`field_type` argument is never read by the Python body either). -/
def format_sql_value (v : Val) (_fieldType : String) : String :=
  match v with
  | .vnull => "NULL"
  | .vbool b => if b then "true" else "false"
  | .vint n => toString n
  | .vstr s => "'" ++ pyReplace s "'" "''" ++ "'"

/-- `RUST_KEYWORDS` (lines 43-46). -/
def RUST_KEYWORDS : List String :=
  ["type", "match", "use", "ref", "self", "super", "crate", "mod",
   "move", "mut", "pub", "static", "trait", "where", "async", "await", "dyn"]

/-- `rust_field_name` (lines 145-147). -/
def rust_field_name (name : String) : String :=
  if RUST_KEYWORDS.contains name then "r#" ++ name else name

/-- `self.type_mappings[field_def['type']]['rust']` (a missing mapping
would be a `KeyError`, unreachable after validation). -/
def tmRust (tms : List (String × TypeMapping)) (fd : FieldDef) : String :=
  match aget tms (fd.type.getD "") with
  | some m => m.rust
  | none => ""

/-- `['typescript']` analogue of `tmRust`. -/
def tmTs (tms : List (String × TypeMapping)) (fd : FieldDef) : String :=
  match aget tms (fd.type.getD "") with
  | some m => m.typescript
  | none => ""

/-- `['postgres']` analogue of `tmRust`. -/
def tmPg (tms : List (String × TypeMapping)) (fd : FieldDef) : String :=
  match aget tms (fd.type.getD "") with
  | some m => m.postgres
  | none => ""

/-- One field line of `_rust_struct` (lines 275-279): nullable fields are
wrapped in `Option<...>`. -/
def rustFieldLine (tms : List (String × TypeMapping)) (fname : String)
    (fd : FieldDef) : String :=
  let rust_type0 := tmRust tms fd
  let rust_type := if fd.nullable then "Option<" ++ rust_type0 ++ ">" else rust_type0
  "    pub " ++ rust_field_name fname ++ ": " ++ rust_type ++ ","

/-- One property line of `_ts_interface` (lines 368-371): nullable fields
get the `?` optional marker. -/
def tsFieldLine (tms : List (String × TypeMapping)) (fname : String)
    (fd : FieldDef) : String :=
  let optional := if fd.nullable then "?" else ""
  "  " ++ fname ++ optional ++ ": " ++ tmTs tms fd ++ ";"

/-- The SQL column constraints of `generate_sql` (lines 504-511):
`PRIMARY KEY` for primary fields, `NOT NULL` only for non-nullable
non-primary fields, then any verbatim `DEFAULT` clause. -/
def sqlConstraints (fd : FieldDef) : List String :=
  (if fd.primary then ["PRIMARY KEY"] else []) ++
  (if !fd.nullable && !fd.primary then ["NOT NULL"] else []) ++
  (match fd.default with
   | some d => ["DEFAULT " ++ d]
   | none => [])

/-- One column line of the generated `CREATE TABLE` (lines 512-515). -/
def sqlColLine (tms : List (String × TypeMapping)) (fname : String)
    (fd : FieldDef) : String :=
  let base := "    " ++ fname ++ " " ++ tmPg tms fd
  let cs := sqlConstraints fd
  if cs.isEmpty then base else base ++ " " ++ String.intercalate " " cs

/-! ### `generate_seeds` (lines 613-767) -/

/-- `record.get('id') or self._generate_deterministic_uuid(table_name, str(i))`
(line 627): the Pass-1 lookup id for a record. -/
def seedRecordId (tname : String) (i : Nat) (r : Record) : Val :=
  if pyTruthy (pyGet r "id") then pyGet r "id"
  else .vstr (generate_deterministic_uuid tname (toString i))

/-- The per-record lookup-building loop of `generate_seeds` (lines 625-642).
Unlike the standalone resolver, both the single- and the multi-column case
store `f"{col}={value}"` keys. -/
def seedLookupLoop (tname : String) (uk : UKey) :
    Nat → List (String × Val) → List Record → List (String × Val)
  | _, tbl, [] => tbl
  | i, tbl, r :: rs =>
      let record_id := seedRecordId tname i r
      let tbl2 :=
        match uk with
        | .multi cols =>
            cols.foldl
              (fun tb kc =>
                let kv := pyGet r kc
                if pyTruthy kv then aset tb (kc ++ "=" ++ pyStr kv) record_id
                else tb)
              tbl
        | .single uks =>
            let kv := pyGet r uks
            if pyTruthy kv then aset tbl (uks ++ "=" ++ pyStr kv) record_id
            else tbl
        | .noKey => tbl
      seedLookupLoop tname uk (i + 1) tbl2 rs

/-- First pass of `generate_seeds` (lines 618-642): one lookup dict per
seeded table. -/
def buildSeedLookups (seeds : Seeds) : List (String × List (String × Val)) :=
  seeds.foldl
    (fun lks (p : String × SeedDef) =>
      aset lks p.1 (seedLookupLoop p.1 p.2.unique_key 0 [] p.2.records))
    []

/-- The dependency-ordered seed tables (lines 652-663): the four hardcoded
tables first, then the remaining seeds in declaration order. -/
def orderedSeeds (seeds : Seeds) : Seeds :=
  let o1 := fourTables.foldl
    (fun acc t =>
      match aget seeds t with
      | some sd => acc ++ [(t, sd)]
      | none => acc)
    []
  seeds.foldl
    (fun acc (p : String × SeedDef) =>
      if acc.any (fun q => q.1 == p.1) then acc else acc ++ [p])
    o1

/-- The INSERT column list (lines 684-699): auto-managed columns first,
then the sample record's columns, with reference pseudo-fields replaced by
their target columns. -/
def insertCols (table_fields : List (String × FieldDef))
    (references : List (String × RefDef)) (sample : Record) : List String :=
  let auto := ["id", "created_at", "updated_at"].filter (fun c => ahas table_fields c)
  sample.foldl
    (fun cols (p : String × Val) =>
      match aget references p.1 with
      | some rd =>
          if ahas table_fields rd.target_column && !cols.contains rd.target_column
          then cols ++ [rd.target_column] else cols
      | none =>
          if !cols.contains p.1 && ahas table_fields p.1 then cols ++ [p.1]
          else cols)
    auto

/-- `table_fields.get(col, {}).get('type', 'TEXT')`. -/
def seedFieldType (table_fields : List (String × FieldDef)) (col : String) : String :=
  match aget table_fields col with
  | some fd => fd.type.getD "TEXT"
  | none => "TEXT"

/-- The emitted SQL value for one column of one record (lines 706-747):
a missing `id` becomes the verbatim expression `gen_random_uuid()`;
timestamps become `NOW()`; a column that is the target of a declared
reference is resolved through the Pass-1 lookups and falls back to `NULL`;
everything else is formatted from the record. -/
def seedCell (table_fields : List (String × FieldDef))
    (references : List (String × RefDef))
    (lookups : List (String × List (String × Val)))
    (r : Record) (col : String) : String :=
  if col = "id" then
    let v := pyGet r "id"
    if v = .vnull then "gen_random_uuid()"
    else if v = .vstr "gen_random_uuid()" then "gen_random_uuid()"
    else format_sql_value v (seedFieldType table_fields col)
  else if col = "created_at" || col = "updated_at" then "NOW()"
  else
    match references.find? (fun p => p.2.target_column = col) with
    | some rp =>
        let ref_value := pyGet r rp.1
        match aget lookups rp.2.ref_table with
        | some tbl =>
            if pyTruthy ref_value then
              match aget tbl (rp.2.ref_column ++ "=" ++ pyStr ref_value) with
              | some v => format_sql_value v (seedFieldType table_fields col)
              | none => "NULL"
            else "NULL"
        | none => "NULL"
    | none => format_sql_value (pyGet r col) (seedFieldType table_fields col)

/-- One `(v1, v2, ...)` row of an INSERT (lines 704-749). -/
def valueRow (table_fields : List (String × FieldDef))
    (references : List (String × RefDef))
    (lookups : List (String × List (String × Val)))
    (cols : List String) (r : Record) : String :=
  "    (" ++ String.intercalate ", " (cols.map (seedCell table_fields references lookups r)) ++ ")"

/-- Python `str(['a', 'b'])`, as rendered into the `ON CONFLICT` clause by
`f"ON CONFLICT ({unique_key})"` when `unique_key` is a list. -/
def pyReprStrList (l : List String) : String :=
  "[" ++ String.intercalate ", " (l.map (fun s => "'" ++ s ++ "'")) ++ "]"

/-- `f"{unique_key}"`. -/
def ukRepr : UKey → String
  | .noKey => "None"
  | .single s => s
  | .multi l => pyReprStrList l

/-- Line 752: the conflict clause (falsy `unique_key` gets the bare form). -/
def conflictClause (uk : UKey) : String :=
  if ukTruthy uk then "ON CONFLICT (" ++ ukRepr uk ++ ") DO NOTHING;"
  else "ON CONFLICT DO NOTHING;"

/-- The per-table INSERT block (lines 665-753).  Tables absent from
`schema['tables']` and seed definitions without records are skipped.
(A table whose definition lacks `fields` would raise a `KeyError` in
Python; that is unreachable after validation, so `fields` defaults to `[]`
here.) -/
def seedTableBlock (tables : List (String × TableDef))
    (lookups : List (String × List (String × Val)))
    (tname : String) (sd : SeedDef) : List String :=
  match aget tables tname with
  | none => []
  | some td =>
      let table_fields := td.fields.getD []
      if sd.records.isEmpty then []
      else
        let sample := sd.records.headD []
        let cols := insertCols table_fields sd.references sample
        ["-- " ++ String.mk (List.replicate 60 '='),
         "-- " ++ pyUpper tname ++ " (" ++ toString sd.records.length ++ " records)",
         "-- " ++ String.mk (List.replicate 60 '='),
         "INSERT INTO " ++ tname ++ " (" ++ String.intercalate ", " cols ++ ")",
         "VALUES",
         String.intercalate ",\n" (sd.records.map (valueRow table_fields sd.references lookups cols)),
         conflictClause sd.unique_key,
         ""]

/-- `generate_seeds` (lines 613-767).  `version` and `generated_at` are the
values computed by the `SchemaGenerator` constructor. -/
def generate_seeds (version generated_at : String)
    (tables : List (String × TableDef)) (seeds : Seeds) : String :=
  if seeds.isEmpty then "-- No seeds defined in schema.json v" ++ version ++ "\n"
  else
    let lookups := buildSeedLookups seeds
    let header :=
      ["-- GENERATED SEEDS FROM schema.json v" ++ version,
       "-- Generated: " ++ generated_at,
       "--",
       "-- Seed data for Passion OS. Run after schema migration.",
       ""]
    let body := (orderedSeeds seeds).foldl
      (fun ls (p : String × SeedDef) => ls ++ seedTableBlock tables lookups p.1 p.2)
      header
    let summary :=
      ["-- Summary", "DO $$", "BEGIN"] ++
      seeds.foldl
        (fun ls (p : String × SeedDef) =>
          if p.2.records.length != 0 then
            ls ++ ["    RAISE NOTICE '  ✓ " ++ p.1 ++ ": " ++
                   toString p.2.records.length ++ " records';"]
          else ls)
        [] ++
      ["END $$;", ""]
    String.intercalate "\n" (body ++ summary)

/-- Outcome of a `main` run (lines 784-810): a Python traceback, a
validation failure (printed errors, `sys.exit(1)`, nothing generated), or a
successful generation.  The generated artifacts are abstracted to the seeds
SQL (the output the claims inspect); file writing is out of scope. -/
inductive RunResult where
  | crashed : String → RunResult
  | validationFailed : List String → RunResult
  | generated : String → RunResult
deriving DecidableEq, Repr

/-- The `main` control flow (lines 789-810): validate, abort on a non-empty
error list before anything is generated, otherwise generate. -/
def mainRun (s : RawSchema) (generated_at : String) : RunResult :=
  match validate_schema s with
  | .error e => .crashed e
  | .ok errs =>
      if errs.isEmpty then
        .generated (generate_seeds (s.version.getD "0.0.0") generated_at
          (s.tables.getD []) s.seeds)
      else .validationFailed errs

/-! ## Concrete scenarios

Small schemas used to evaluate the embedded code at specific inputs
(the spec's end-to-end scenario from §8 and variants of it). -/

/-- `workouts` seed: `unique_key="name"`, records `[{name: "Leg Day"}]`. -/
def legDaySeedDef : SeedDef :=
  { unique_key := .single "name",
    records := [[("name", .vstr "Leg Day")]],
    references := [] }

/-- `workout_sections` references:
`{workout_name: {ref_table: workouts, ref_column: name, target_column: workout_id}}`. -/
def sectionsRefs : List (String × RefDef) :=
  [("workout_name", { ref_table := "workouts", ref_column := "name",
                      target_column := "workout_id" })]

/-- `workout_sections` seed with record `{workout_name: "Leg Day", name: "Warmup"}`. -/
def sectionsSeedDef : SeedDef :=
  { unique_key := .noKey,
    records := [[("workout_name", .vstr "Leg Day"), ("name", .vstr "Warmup")]],
    references := sectionsRefs }

/-- The spec §8 end-to-end scenario schema (resolver view). -/
def scenarioSchema : RSchema :=
  { seeds := [("workouts", legDaySeedDef), ("workout_sections", sectionsSeedDef)],
    rest := [] }

/-- `workouts` table: `id` (primary UUID) and `name` (TEXT). -/
def workoutsTableDef : TableDef :=
  { fields := some [("id", { type := some "UUID", primary := true }),
                    ("name", { type := some "TEXT" })],
    rust_type := some "Workout", ts_type := some "Workout" }

/-- `workout_sections` table: `id`, `workout_id` (nullable UUID), `name`. -/
def sectionsTableDef : TableDef :=
  { fields := some [("id", { type := some "UUID", primary := true }),
                    ("workout_id", { type := some "UUID", nullable := true }),
                    ("name", { type := some "TEXT" })],
    rust_type := some "WorkoutSection", ts_type := some "WorkoutSection" }

/-- The scenario's `tables` section. -/
def scenarioTables : List (String × TableDef) :=
  [("workouts", workoutsTableDef), ("workout_sections", sectionsTableDef)]

/-- A composite-key `workouts` seed: `unique_key=["name", "category"]`,
one record `{name: "x", category: "y"}`. -/
def compositeSeedDef : SeedDef :=
  { unique_key := .multi ["name", "category"],
    records := [[("name", .vstr "x"), ("category", .vstr "y")]],
    references := [] }

/-- A `workout_exercises` seed whose single record carries only the
`section_name` pseudo-field (declared in `references`). -/
def sectionOnlySeedDef : SeedDef :=
  { unique_key := .noKey,
    records := [[("section_name", .vstr "Warmup")]],
    references := [("section_name", { ref_table := "workout_sections",
                                      ref_column := "name",
                                      target_column := "section_id" })] }

/-- Schema for the `section_name`-only scenario. -/
def sectionOnlySchema : RSchema :=
  { seeds := [("workout_exercises", sectionOnlySeedDef)], rest := [] }

/-- A raw schema with `version` present but both `tables` and
`type_mappings` absent. -/
def noTablesSchema : RawSchema :=
  { version := some "1.0.0", tables := none, type_mappings := none, seeds := [] }

/-- A raw schema whose single seed record has two columns that are not in
the table's field set. -/
def twoBadColsSchema : RawSchema :=
  { version := some "1.0.0",
    tables := some [("habits", { fields := some [("id", { type := some "UUID" })],
                                 rust_type := some "Habit", ts_type := some "Habit" })],
    type_mappings := some [("UUID", { rust := "Uuid", typescript := "string",
                                      postgres := "UUID" })],
    seeds := [("habits", { unique_key := .noKey,
                           records := [[("bogus1", .vstr "a"), ("bogus2", .vstr "b")]],
                           references := [] })] }

/-- The scenario schema as the generator's input (tables + seeds). -/
def scenarioRawSchema : RawSchema :=
  { version := some "1.0.0",
    tables := some scenarioTables,
    type_mappings := some [("UUID", { rust := "Uuid", typescript := "string",
                                      postgres := "UUID" }),
                           ("TEXT", { rust := "String", typescript := "string",
                                      postgres := "TEXT" })],
    seeds := scenarioSchema.seeds }

/-- The scenario with the child's natural key pointing at a workout that is
never seeded (`workout_name: "Nonexistent"`). -/
def missingRefSeedDef : SeedDef :=
  { unique_key := .noKey,
    records := [[("workout_name", .vstr "Nonexistent"), ("name", .vstr "Warmup")]],
    references := sectionsRefs }

/-- Generator input for the unresolvable-reference scenario. -/
def missingRefRawSchema : RawSchema :=
  { scenarioRawSchema with
    seeds := [("workouts", legDaySeedDef), ("workout_sections", missingRefSeedDef)] }

/-- Extract the schema from a successful resolver run (used only to name
concrete resolved outputs; the error branch is never reached on them). -/
def okOrDefault : Except String RSchema → RSchema
  | .ok s => s
  | .error _ => { seeds := [], rest := [] }

/-- The resolver's output on the §8 scenario. -/
def scenarioResolved : RSchema :=
  okOrDefault (resolve_seed_references scenarioSchema)

/-- The resolver's output on the `section_name`-only scenario. -/
def sectionOnlyResolved : RSchema :=
  okOrDefault (resolve_seed_references sectionOnlySchema)

/-- The `workout_exercises` record after resolving `sectionOnlySchema`:
the declared `section_name` pseudo-field is still present. -/
def sectionOnlyResolvedRecord : Record :=
  [("section_name", .vstr "Warmup"),
   ("id", .vstr (generate_deterministic_uuid "workout_exercises" "0"))]

/-- A seed for a table outside the resolver's four hardcoded names,
carrying a pseudo-field, a declared reference and no `id`. -/
def habitsSeedDef : SeedDef :=
  { unique_key := .single "name",
    records := [[("name", .vstr "Read"), ("habit_name", .vstr "x")]],
    references := [("habit_name", { ref_table := "habits", ref_column := "name",
                                    target_column := "habit_id" })] }

/-- A schema seeding both a processed table and the untouched `habits`. -/
def extraTableSchema : RSchema :=
  { seeds := [("workouts", legDaySeedDef), ("habits", habitsSeedDef)],
    rest := [("version", .vstr "9.9.9")] }

/-- The resolver's output on `extraTableSchema`. -/
def extraTableResolved : RSchema :=
  okOrDefault (resolve_seed_references extraTableSchema)

/-! ## Association-list lemmas -/

section AssocLemmas

variable {κ α : Type} [DecidableEq κ]

theorem aget_aset_self (l : List (κ × α)) (k : κ) (v : α) :
    aget (aset l k v) k = some v := by
  induction l with
  | nil => simp [aset, aget]
  | cons p rest ih =>
      by_cases h : p.1 = k
      · simp [aset, aget, h]
      · simp [aset, aget, h, ih]

theorem aget_aset_ne (l : List (κ × α)) {k k' : κ} (v : α) (h : k' ≠ k) :
    aget (aset l k v) k' = aget l k' := by
  have h2 : ¬(k = k') := fun hk => h hk.symm
  induction l with
  | nil => simp [aset, aget, h2]
  | cons p rest ih =>
      obtain ⟨pk, pv⟩ := p
      by_cases hp : pk = k
      · subst hp
        simp [aset, aget, h2]
      · by_cases hp' : pk = k'
        · simp [aset, aget, hp, hp', h]
        · simp [aset, aget, hp, hp', ih]

theorem aset_eq_of_aget {l : List (κ × α)} {k : κ} {v : α}
    (h : aget l k = some v) : aset l k v = l := by
  induction l with
  | nil => simp [aget] at h
  | cons p rest ih =>
      obtain ⟨pk, pv⟩ := p
      by_cases hp : pk = k
      · subst hp
        simp [aget] at h
        simp [aset, h]
      · simp [aget, hp] at h
        simp [aset, hp, ih h]

theorem aset_ne_nil (l : List (κ × α)) (k : κ) (v : α) : aset l k v ≠ [] := by
  cases l with
  | nil => simp [aset]
  | cons p rest =>
      by_cases hp : p.1 = k <;> simp [aset, hp]

theorem aget_adel_ne (l : List (κ × α)) {k k' : κ} (h : k' ≠ k) :
    aget (adel l k) k' = aget l k' := by
  have h2 : ¬(k = k') := fun hk => h hk.symm
  induction l with
  | nil => simp [adel]
  | cons p rest ih =>
      obtain ⟨pk, pv⟩ := p
      by_cases hp : pk = k
      · subst hp
        simp [adel, aget, h2, ih]
      · by_cases hp' : pk = k'
        · simp [adel, aget, hp, hp', h]
        · simp [adel, aget, hp, hp', ih]

theorem aget_adel_self (l : List (κ × α)) (k : κ) :
    aget (adel l k) k = none := by
  induction l with
  | nil => simp [adel, aget]
  | cons p rest ih =>
      by_cases hp : p.1 = k
      · simp [adel, hp, ih]
      · simp [adel, aget, hp, ih]

theorem ahas_aset_self (l : List (κ × α)) (k : κ) (v : α) :
    ahas (aset l k v) k = true := by
  simp [ahas, aget_aset_self]

theorem ahas_aset_ne (l : List (κ × α)) {k k' : κ} (v : α) (h : k' ≠ k) :
    ahas (aset l k v) k' = ahas l k' := by
  simp [ahas, aget_aset_ne l v h]

theorem ahas_adel_self (l : List (κ × α)) (k : κ) :
    ahas (adel l k) k = false := by
  simp [ahas, aget_adel_self]

theorem ahas_adel_ne (l : List (κ × α)) {k k' : κ} (h : k' ≠ k) :
    ahas (adel l k) k' = ahas l k' := by
  simp [ahas, aget_adel_ne l h]

theorem ahas_of_ahas_aset (l : List (κ × α)) (k k' : κ) (v : α)
    (h : ahas l k' = true) : ahas (aset l k v) k' = true := by
  by_cases hk : k' = k
  · subst hk; simp [ahas_aset_self]
  · rwa [ahas_aset_ne l v hk]

end AssocLemmas

/-! ## `mapRecords` lemmas -/

theorem mapRecords_ok_of_fixpoints {f : Record → Except String Record}
    {rs : List Record} (h : ∀ r ∈ rs, f r = .ok r) :
    mapRecords f rs = .ok rs := by
  induction rs with
  | nil => rfl
  | cons r rest ih =>
      have hr := h r (List.mem_cons_self r rest)
      have hrest := ih (fun x hx => h x (List.mem_cons_of_mem r hx))
      simp [mapRecords, hr, hrest]

theorem mapRecords_mem {f : Record → Except String Record}
    {rs rs' : List Record} (h : mapRecords f rs = .ok rs') :
    ∀ r' ∈ rs', ∃ r ∈ rs, f r = .ok r' := by
  induction rs generalizing rs' with
  | nil =>
      simp [mapRecords] at h
      subst h
      intro r' hr'
      simp at hr'
  | cons r rest ih =>
      simp only [mapRecords] at h
      cases hf : f r with
      | error e => rw [hf] at h; exact absurd h (by simp)
      | ok r2 =>
          rw [hf] at h
          cases hm : mapRecords f rest with
          | error e => rw [hm] at h; exact absurd h (by simp)
          | ok rest2 =>
              rw [hm] at h
              simp at h
              subst h
              intro r' hr'
              rcases List.mem_cons.mp hr' with h1 | h2
              · exact ⟨r, List.mem_cons_self r rest, by rw [hf, h1]⟩
              · obtain ⟨r0, hr0, hfr0⟩ := ih hm r' h2
                exact ⟨r0, List.mem_cons_of_mem r hr0, hfr0⟩

theorem mapRecords_get? {f : Record → Except String Record}
    {rs rs' : List Record} (h : mapRecords f rs = .ok rs') :
    ∀ i r, rs.get? i = some r → ∃ r', rs'.get? i = some r' ∧ f r = .ok r' := by
  induction rs generalizing rs' with
  | nil => intro i r hr; simp at hr
  | cons r0 rest ih =>
      simp only [mapRecords] at h
      cases hf : f r0 with
      | error e => rw [hf] at h; exact absurd h (by simp)
      | ok r2 =>
          rw [hf] at h
          cases hm : mapRecords f rest with
          | error e => rw [hm] at h; exact absurd h (by simp)
          | ok rest2 =>
              rw [hm] at h
              simp at h
              subst h
              intro i r hr
              cases i with
              | zero =>
                  simp at hr
                  subst hr
                  exact ⟨r2, by simp, hf⟩
              | succ j =>
                  simp at hr
                  obtain ⟨r', hr', hfr'⟩ := ih hm j r (by simpa using hr)
                  exact ⟨r', by simpa using hr', hfr'⟩

/-! ## Pass-2 record lemmas -/

theorem resolveNameField_of_not_has {lk : Option Lookup} {fn tn : String}
    {r : Record} (h : ahas r fn = false) :
    resolveNameField lk fn tn r = .ok r := by
  simp [resolveNameField, h]

theorem resolveNameField_not_has {lk : Option Lookup} {fn tn : String}
    {r r' : Record} (h : resolveNameField lk fn tn r = .ok r') :
    ahas r' fn = false := by
  by_cases hr : ahas r fn
  · simp only [resolveNameField, hr, if_true] at h
    cases lk with
    | none =>
        simp at h
        subst h
        exact ahas_adel_self r fn
    | some tbl =>
        dsimp only at h
        cases hs : scanNameLookup tbl (pyGet r fn) with
        | error e => rw [hs] at h; exact absurd h (by simp)
        | ok o =>
            rw [hs] at h
            cases o with
            | none =>
                simp at h
                subst h
                exact ahas_adel_self r fn
            | some rid =>
                simp at h
                subst h
                exact ahas_adel_self _ fn
  · simp only [resolveNameField, hr] at h
    simp at h
    subst h
    simpa using hr

theorem resolveNameField_aget_other {lk : Option Lookup} {fn tn : String}
    {r r' : Record} (h : resolveNameField lk fn tn r = .ok r')
    (k : String) (hk1 : k ≠ fn) (hk2 : k ≠ tn) :
    aget r' k = aget r k := by
  by_cases hr : ahas r fn
  · simp only [resolveNameField, hr, if_true] at h
    cases lk with
    | none =>
        simp at h
        subst h
        exact aget_adel_ne r hk1
    | some tbl =>
        dsimp only at h
        cases hs : scanNameLookup tbl (pyGet r fn) with
        | error e => rw [hs] at h; exact absurd h (by simp)
        | ok o =>
            rw [hs] at h
            cases o with
            | none =>
                simp at h
                subst h
                exact aget_adel_ne r hk1
            | some rid =>
                simp at h
                subst h
                rw [aget_adel_ne _ hk1, aget_aset_ne _ _ hk2]
  · simp only [resolveNameField, hr] at h
    simp at h
    subst h
    rfl

theorem resolveSectionField_of_condition_false {ws : List Record} {r : Record}
    (h : (ahas r "section_name" && ahas r "workout_id") = false) :
    resolveSectionField ws r = r := by
  simp [resolveSectionField, h]

theorem resolveSectionField_section_excludes_workout {ws : List Record}
    {r : Record} (h : ahas (resolveSectionField ws r) "section_name" = true) :
    resolveSectionField ws r = r ∧ ahas r "workout_id" = false := by
  by_cases hc : (ahas r "section_name" && ahas r "workout_id") = true
  · exfalso
    simp only [resolveSectionField, hc, if_true] at h
    cases hf : (ws.find? (fun w =>
        pyEq (pyGet w "name") (pyGet r "section_name") &&
        pyEq (pyGet w "workout_id") (pyGet r "workout_id"))) with
    | none => rw [hf] at h; rw [ahas_adel_self] at h; exact absurd h (by simp)
    | some w => rw [hf] at h; rw [ahas_adel_self] at h; exact absurd h (by simp)
  · have hcf : (ahas r "section_name" && ahas r "workout_id") = false := by
      simpa using hc
    have he := @resolveSectionField_of_condition_false ws r hcf
    refine ⟨he, ?_⟩
    rw [he] at h
    rcases Bool.and_eq_false_iff.mp hcf with h1 | h2
    · rw [h] at h1; exact absurd h1 (by simp)
    · exact h2

theorem resolveSectionField_aget_other (ws : List Record) (r : Record)
    (k : String) (hk1 : k ≠ "section_name") (hk2 : k ≠ "section_id") :
    aget (resolveSectionField ws r) k = aget r k := by
  by_cases hc : (ahas r "section_name" && ahas r "workout_id") = true
  · simp only [resolveSectionField, hc, if_true]
    cases hf : (ws.find? (fun w =>
        pyEq (pyGet w "name") (pyGet r "section_name") &&
        pyEq (pyGet w "workout_id") (pyGet r "workout_id"))) with
    | none => rw [aget_adel_ne _ hk1]
    | some w => rw [aget_adel_ne _ hk1, aget_aset_ne _ _ hk2]
  · have hcf : (ahas r "section_name" && ahas r "workout_id") = false := by
      simpa using hc
    simp [resolveSectionField, hcf]

theorem pass2WSRecord_fix {lk : Option Lookup} {r : Record}
    (h : ahas r "workout_name" = false) : pass2WSRecord lk r = .ok r :=
  resolveNameField_of_not_has h

theorem pass2WSRecord_not_has {lk : Option Lookup} {r r' : Record}
    (h : pass2WSRecord lk r = .ok r') : ahas r' "workout_name" = false :=
  resolveNameField_not_has h

theorem pass2WSRecord_aget_id {lk : Option Lookup} {r r' : Record}
    (h : pass2WSRecord lk r = .ok r') : aget r' "id" = aget r "id" :=
  resolveNameField_aget_other h "id" (by decide) (by decide)

theorem pass2WERecord_fix {wlk elk : Option Lookup} {ws : List Record}
    {r : Record} (h1 : ahas r "workout_name" = false)
    (h2 : ahas r "exercise_name" = false)
    (h3 : (ahas r "section_name" && ahas r "workout_id") = false) :
    pass2WERecord wlk elk ws r = .ok r := by
  simp only [pass2WERecord, resolveNameField_of_not_has h1,
    resolveNameField_of_not_has h2, resolveSectionField_of_condition_false h3]

/-- Inversion of `pass2WERecord`: the three stage results. -/
theorem pass2WERecord_inv {wlk elk : Option Lookup} {ws : List Record}
    {r r' : Record} (h : pass2WERecord wlk elk ws r = .ok r') :
    ∃ r1 r2, resolveNameField wlk "workout_name" "workout_id" r = .ok r1 ∧
      resolveNameField elk "exercise_name" "exercise_id" r1 = .ok r2 ∧
      r' = resolveSectionField ws r2 := by
  simp only [pass2WERecord] at h
  cases h1 : resolveNameField wlk "workout_name" "workout_id" r with
  | error e => rw [h1] at h; exact absurd h (by simp)
  | ok r1 =>
      rw [h1] at h
      dsimp only at h
      cases h2 : resolveNameField elk "exercise_name" "exercise_id" r1 with
      | error e => rw [h2] at h; exact absurd h (by simp)
      | ok r2 =>
          rw [h2] at h
          simp at h
          exact ⟨r1, r2, rfl, h2, h.symm⟩

theorem pass2WERecord_post {wlk elk : Option Lookup} {ws : List Record}
    {r r' : Record} (h : pass2WERecord wlk elk ws r = .ok r') :
    ahas r' "workout_name" = false ∧ ahas r' "exercise_name" = false ∧
      (ahas r' "section_name" = true → ahas r' "workout_id" = false) ∧
      aget r' "id" = aget r "id" := by
  obtain ⟨r1, r2, h1, h2, h3⟩ := pass2WERecord_inv h
  have hwn1 : ahas r1 "workout_name" = false := resolveNameField_not_has h1
  have hwn2 : ahas r2 "workout_name" = false := by
    have := resolveNameField_aget_other h2 "workout_name" (by decide) (by decide)
    simpa [ahas, this] using hwn1
  have hwn' : ahas r' "workout_name" = false := by
    rw [h3]
    have := resolveSectionField_aget_other ws r2 "workout_name" (by decide) (by decide)
    simpa [ahas, this] using hwn2
  have hen2 : ahas r2 "exercise_name" = false := resolveNameField_not_has h2
  have hen' : ahas r' "exercise_name" = false := by
    rw [h3]
    have := resolveSectionField_aget_other ws r2 "exercise_name" (by decide) (by decide)
    simpa [ahas, this] using hen2
  refine ⟨hwn', hen', ?_, ?_⟩
  · intro hsn
    rw [h3] at hsn ⊢
    obtain ⟨hfix, hwid⟩ := resolveSectionField_section_excludes_workout hsn
    rw [hfix]
    exact hwid
  · rw [h3]
    have hs := resolveSectionField_aget_other ws r2 "id" (by decide) (by decide)
    rw [hs]
    rw [resolveNameField_aget_other h2 "id" (by decide) (by decide)]
    exact resolveNameField_aget_other h1 "id" (by decide) (by decide)

/-! ## Pass-1 lemmas -/

theorem assignId_has_id (tname : String) (uk : UKey) (i : Nat) (r : Record) :
    ahas (assignId tname uk i r) "id" = true := by
  by_cases h : ahas r "id"
  · simp [assignId, h]
  · simp only [assignId, h]
    simp [ahas_aset_self]

theorem assignId_of_has {tname : String} {uk : UKey} {i : Nat} {r : Record}
    (h : ahas r "id" = true) : assignId tname uk i r = r := by
  simp [assignId, h]

theorem assignId_aget_id (tname : String) (uk : UKey) (i : Nat) (r : Record) :
    aget (assignId tname uk i r) "id" =
      (if ahas r "id" = true then aget r "id"
       else some (.vstr (derivedRecordId tname uk i r))) := by
  by_cases h : ahas r "id"
  · simp [assignId, h]
  · simp only [assignId, h, if_false, Bool.false_eq_true]
    simp [aget_aset_self]

theorem pass1Loop_fst_get? (tname : String) (uk : UKey) :
    ∀ (rs : List Record) (i : Nat) (tbl : Lookup) (j : Nat) (r : Record),
      rs.get? j = some r →
      (pass1Loop tname uk i tbl rs).1.get? j = some (assignId tname uk (i + j) r) := by
  intro rs
  induction rs with
  | nil => intro i tbl j r hr; simp at hr
  | cons r0 rest ih =>
      intro i tbl j r hr
      cases j with
      | zero =>
          simp at hr
          subst hr
          simp [pass1Loop]
      | succ j' =>
          simp at hr
          have := ih (i + 1) (addEntries uk tbl (assignId tname uk i r0)) j' r (by simpa using hr)
          simp only [pass1Loop]
          simpa [Nat.add_assoc, Nat.add_comm 1 j'] using this

theorem pass1Loop_fst_has_id (tname : String) (uk : UKey) :
    ∀ (rs : List Record) (i : Nat) (tbl : Lookup),
      ∀ r' ∈ (pass1Loop tname uk i tbl rs).1, ahas r' "id" = true := by
  intro rs
  induction rs with
  | nil => intro i tbl r' hr'; simp [pass1Loop] at hr'
  | cons r0 rest ih =>
      intro i tbl r' hr'
      simp only [pass1Loop] at hr'
      rcases List.mem_cons.mp hr' with h1 | h2
      · rw [h1]; exact assignId_has_id tname uk i r0
      · exact ih (i + 1) _ r' h2

theorem pass1Loop_fst_fix (tname : String) (uk : UKey) :
    ∀ (rs : List Record) (i : Nat) (tbl : Lookup),
      (∀ r ∈ rs, ahas r "id" = true) → (pass1Loop tname uk i tbl rs).1 = rs := by
  intro rs
  induction rs with
  | nil => intro i tbl _; rfl
  | cons r0 rest ih =>
      intro i tbl h
      have h0 := h r0 (List.mem_cons_self r0 rest)
      simp only [pass1Loop, assignId_of_has h0]
      rw [ih (i + 1) _ (fun x hx => h x (List.mem_cons_of_mem r0 hx))]

theorem pass1Table_fix {tname : String} {sd : SeedDef}
    (h : ∀ r ∈ sd.records, ahas r "id" = true) :
    (pass1Table tname sd).1 = sd := by
  simp only [pass1Table]
  rw [pass1Loop_fst_fix tname sd.unique_key sd.records 0 [] h]

/-! ## Pass-1 fold lemmas -/

theorem pass1Step_fst_aget_ne (acc : Seeds × List (String × Lookup))
    {t t' : String} (h : t' ≠ t) :
    aget (pass1Step acc t).1 t' = aget acc.1 t' := by
  simp only [pass1Step]
  cases hg : aget acc.1 t with
  | none => rfl
  | some sd => exact aget_aset_ne _ _ h

theorem pass1Step_fst_aget_self (acc : Seeds × List (String × Lookup))
    (t : String) :
    aget (pass1Step acc t).1 t =
      (aget acc.1 t).map (fun sd => (pass1Table t sd).1) := by
  simp only [pass1Step]
  cases hg : aget acc.1 t with
  | none => simp [hg]
  | some sd => simp [aget_aset_self]

theorem foldl_pass1Step_aget_not_mem :
    ∀ (ts : List String) (acc : Seeds × List (String × Lookup)) (t : String),
      t ∉ ts → aget ((ts.foldl pass1Step acc)).1 t = aget acc.1 t := by
  intro ts
  induction ts with
  | nil => intro acc t _; rfl
  | cons t0 rest ih =>
      intro acc t ht
      have h1 : t ∉ rest := fun h => ht (List.mem_cons_of_mem t0 h)
      have h2 : t ≠ t0 := fun h => ht (h ▸ List.mem_cons_self t0 rest)
      simp only [List.foldl_cons]
      rw [ih (pass1Step acc t0) t h1, pass1Step_fst_aget_ne acc h2]

theorem foldl_pass1Step_aget_mem :
    ∀ (ts : List String) (acc : Seeds × List (String × Lookup)) (t : String),
      ts.Nodup → t ∈ ts →
      aget ((ts.foldl pass1Step acc)).1 t =
        (aget acc.1 t).map (fun sd => (pass1Table t sd).1) := by
  intro ts
  induction ts with
  | nil => intro acc t _ ht; simp at ht
  | cons t0 rest ih =>
      intro acc t hnd ht
      simp only [List.foldl_cons]
      by_cases h0 : t = t0
      · subst h0
        have hnr : t ∉ rest := (List.nodup_cons.mp hnd).1
        rw [foldl_pass1Step_aget_not_mem rest (pass1Step acc t) t hnr]
        exact pass1Step_fst_aget_self acc t
      · have hr : t ∈ rest := by
          rcases List.mem_cons.mp ht with h | h
          · exact absurd h h0
          · exact h
        rw [ih (pass1Step acc t0) t (List.nodup_cons.mp hnd).2 hr]
        rw [pass1Step_fst_aget_ne acc h0]

theorem foldl_pass1Step_fst_fix :
    ∀ (ts : List String) (acc : Seeds × List (String × Lookup)),
      (∀ t ∈ ts, ∀ sd, aget acc.1 t = some sd → (pass1Table t sd).1 = sd) →
      ((ts.foldl pass1Step acc)).1 = acc.1 := by
  intro ts
  induction ts with
  | nil => intro acc _; rfl
  | cons t0 rest ih =>
      intro acc h
      simp only [List.foldl_cons]
      have hstep : (pass1Step acc t0).1 = acc.1 := by
        simp only [pass1Step]
        cases hg : aget acc.1 t0 with
        | none => rfl
        | some sd =>
            have := h t0 (List.mem_cons_self t0 rest) sd hg
            simp only [this]
            exact aset_eq_of_aget hg
      have := ih (pass1Step acc t0) (by
        intro t ht sd hsd
        rw [hstep] at hsd
        exact h t (List.mem_cons_of_mem t0 ht) sd hsd)
      rw [this, hstep]

theorem foldl_pass1Step_fst_ne_nil :
    ∀ (ts : List String) (acc : Seeds × List (String × Lookup)),
      acc.1 ≠ [] → ((ts.foldl pass1Step acc)).1 ≠ [] := by
  intro ts
  induction ts with
  | nil => intro acc h; exact h
  | cons t0 rest ih =>
      intro acc h
      simp only [List.foldl_cons]
      refine ih (pass1Step acc t0) ?_
      simp only [pass1Step]
      cases hg : aget acc.1 t0 with
      | none => exact h
      | some sd => exact aset_ne_nil _ _ _

/-! ## `pass2Table` lemmas -/

theorem pass2Table_inv {f : Record → Except String Record} {seeds seeds' : Seeds}
    {t : String} (h : pass2Table f seeds t = .ok seeds') :
    (aget seeds t = none ∧ seeds' = seeds) ∨
    (∃ sd recs, aget seeds t = some sd ∧ mapRecords f sd.records = .ok recs ∧
      seeds' = aset seeds t { sd with records := recs }) := by
  simp only [pass2Table] at h
  cases hg : aget seeds t with
  | none =>
      rw [hg] at h
      simp at h
      exact Or.inl ⟨rfl, h.symm⟩
  | some sd =>
      rw [hg] at h
      dsimp only at h
      cases hm : mapRecords f sd.records with
      | error e => rw [hm] at h; exact absurd h (by simp [Except.map])
      | ok recs =>
          rw [hm] at h
          simp [Except.map] at h
          exact Or.inr ⟨sd, recs, rfl, hm, h.symm⟩

theorem pass2Table_fix {f : Record → Except String Record} {seeds : Seeds}
    {t : String} (h : ∀ sd, aget seeds t = some sd → ∀ r ∈ sd.records, f r = .ok r) :
    pass2Table f seeds t = .ok seeds := by
  simp only [pass2Table]
  cases hg : aget seeds t with
  | none => rfl
  | some sd =>
      dsimp only
      rw [mapRecords_ok_of_fixpoints (h sd hg)]
      simp [Except.map]
      exact aset_eq_of_aget hg

theorem pass2Table_aget_ne {f : Record → Except String Record}
    {seeds seeds' : Seeds} {t t' : String}
    (h : pass2Table f seeds t = .ok seeds') (hne : t' ≠ t) :
    aget seeds' t' = aget seeds t' := by
  rcases pass2Table_inv h with ⟨_, he⟩ | ⟨sd, recs, _, _, he⟩
  · rw [he]
  · rw [he, aget_aset_ne _ _ hne]

theorem pass2Table_ne_nil {f : Record → Except String Record}
    {seeds seeds' : Seeds} {t : String}
    (h : pass2Table f seeds t = .ok seeds') (hne : seeds ≠ []) : seeds' ≠ [] := by
  rcases pass2Table_inv h with ⟨_, he⟩ | ⟨sd, recs, _, _, he⟩
  · rw [he]; exact hne
  · rw [he]; exact aset_ne_nil _ _ _

theorem pass2Table_all_pred {f : Record → Except String Record}
    {seeds seeds' : Seeds} {t : String} (h : pass2Table f seeds t = .ok seeds')
    (P : Record → Prop) (hpres : ∀ r r', f r = .ok r' → P r → P r')
    (hall : ∀ sd, aget seeds t = some sd → ∀ r ∈ sd.records, P r) :
    ∀ sd, aget seeds' t = some sd → ∀ r ∈ sd.records, P r := by
  rcases pass2Table_inv h with ⟨hg, he⟩ | ⟨sd0, recs, hg, hm, he⟩
  · intro sd hsd
    rw [he, hg] at hsd
    exact absurd hsd (by simp)
  · intro sd hsd r hr
    rw [he, aget_aset_self] at hsd
    cases hsd
    simp at hr
    obtain ⟨r0, hr0, hf⟩ := mapRecords_mem hm r hr
    exact hpres r0 r hf (hall sd0 hg r0 hr0)

theorem pass2Table_all_post {f : Record → Except String Record}
    {seeds seeds' : Seeds} {t : String} (h : pass2Table f seeds t = .ok seeds')
    (P : Record → Prop) (hpost : ∀ r r', f r = .ok r' → P r') :
    ∀ sd, aget seeds' t = some sd → ∀ r ∈ sd.records, P r := by
  rcases pass2Table_inv h with ⟨hg, he⟩ | ⟨sd0, recs, hg, hm, he⟩
  · intro sd hsd
    rw [he, hg] at hsd
    exact absurd hsd (by simp)
  · intro sd hsd r hr
    rw [he, aget_aset_self] at hsd
    cases hsd
    simp at hr
    obtain ⟨r0, _, hf⟩ := mapRecords_mem hm r hr
    exact hpost r0 r hf

/-! ## Invariants of the resolver's output -/

theorem fourTables_nodup : fourTables.Nodup := by decide

theorem pass1_all_have_id (seeds : Seeds) :
    ∀ t ∈ fourTables, ∀ sd, aget (pass1 seeds).1 t = some sd →
      ∀ r ∈ sd.records, ahas r "id" = true := by
  intro t ht sd hsd r hr
  rw [show (pass1 seeds).1 = (fourTables.foldl pass1Step (seeds, [])).1 from rfl] at hsd
  rw [foldl_pass1Step_aget_mem fourTables (seeds, []) t fourTables_nodup ht] at hsd
  cases hg : aget (seeds, ([] : List (String × Lookup))).1 t with
  | none => rw [hg] at hsd; exact absurd hsd (by simp)
  | some sd0 =>
      rw [hg] at hsd
      simp at hsd
      subst hsd
      exact pass1Loop_fst_has_id t sd0.unique_key sd0.records 0 [] r hr

/-- The three structural invariants that hold of the seeds produced by a
successful resolver run: every record of the four processed tables carries
an `id`; no `workout_sections` record retains `workout_name`; and
`workout_exercises` records retain neither `workout_name` nor
`exercise_name`, while a retained `section_name` implies an absent
`workout_id`. -/
theorem resolved_seeds_invariants {seeds seeds2 seeds3 : Seeds}
    {wlk wlk2 elk : Option Lookup} {wsRecs : List Record}
    (h2 : pass2Table (pass2WSRecord wlk) (pass1 seeds).1 "workout_sections" = .ok seeds2)
    (h3 : pass2Table (pass2WERecord wlk2 elk wsRecs) seeds2 "workout_exercises" = .ok seeds3) :
    (∀ t ∈ fourTables, ∀ sd, aget seeds3 t = some sd →
       ∀ r ∈ sd.records, ahas r "id" = true) ∧
    (∀ sd, aget seeds3 "workout_sections" = some sd →
       ∀ r ∈ sd.records, ahas r "workout_name" = false) ∧
    (∀ sd, aget seeds3 "workout_exercises" = some sd →
       ∀ r ∈ sd.records, ahas r "workout_name" = false ∧
         ahas r "exercise_name" = false ∧
         (ahas r "section_name" = true → ahas r "workout_id" = false)) := by
  have hid1 := pass1_all_have_id seeds
  have hid2 : ∀ t ∈ fourTables, ∀ sd, aget seeds2 t = some sd →
      ∀ r ∈ sd.records, ahas r "id" = true := by
    intro t ht
    by_cases hws : t = "workout_sections"
    · subst hws
      exact pass2Table_all_pred h2 (fun r => ahas r "id" = true)
        (fun r r' hf hp => by
          have := pass2WSRecord_aget_id hf
          simpa [ahas, this] using hp)
        (hid1 "workout_sections" ht)
    · intro sd hsd
      rw [pass2Table_aget_ne h2 hws] at hsd
      exact hid1 t ht sd hsd
  have hid3 : ∀ t ∈ fourTables, ∀ sd, aget seeds3 t = some sd →
      ∀ r ∈ sd.records, ahas r "id" = true := by
    intro t ht
    by_cases hwe : t = "workout_exercises"
    · subst hwe
      exact pass2Table_all_pred h3 (fun r => ahas r "id" = true)
        (fun r r' hf hp => by
          have := (pass2WERecord_post hf).2.2.2
          simpa [ahas, this] using hp)
        (hid2 "workout_exercises" ht)
    · intro sd hsd
      rw [pass2Table_aget_ne h3 hwe] at hsd
      exact hid2 t ht sd hsd
  have hws3 : ∀ sd, aget seeds3 "workout_sections" = some sd →
      ∀ r ∈ sd.records, ahas r "workout_name" = false := by
    intro sd hsd
    rw [pass2Table_aget_ne h3 (by decide)] at hsd
    exact pass2Table_all_post h2 (fun r => ahas r "workout_name" = false)
      (fun r r' hf => pass2WSRecord_not_has hf) sd hsd
  have hwe3 : ∀ sd, aget seeds3 "workout_exercises" = some sd →
      ∀ r ∈ sd.records, ahas r "workout_name" = false ∧
        ahas r "exercise_name" = false ∧
        (ahas r "section_name" = true → ahas r "workout_id" = false) :=
    pass2Table_all_post h3 _
      (fun r r' hf =>
        ⟨(pass2WERecord_post hf).1, (pass2WERecord_post hf).2.1,
         (pass2WERecord_post hf).2.2.1⟩)
  exact ⟨hid3, hws3, hwe3⟩

/-! ## Unfolding `resolve_seed_references` -/

theorem resolve_ok_inv {s out : RSchema}
    (h : resolve_seed_references s = .ok out) :
    (s.seeds.isEmpty = true ∧ out = s) ∨
    (s.seeds.isEmpty = false ∧ ∃ seeds2 seeds3,
      pass2Table (pass2WSRecord (aget (pass1 s.seeds).2 "workouts"))
        (pass1 s.seeds).1 "workout_sections" = .ok seeds2 ∧
      pass2Table (pass2WERecord (aget (pass1 s.seeds).2 "workouts")
          (aget (pass1 s.seeds).2 "exercise_definitions")
          (match aget seeds2 "workout_sections" with
           | some w => w.records
           | none => []))
        seeds2 "workout_exercises" = .ok seeds3 ∧
      out = { s with seeds := seeds3 }) := by
  by_cases hemp : s.seeds.isEmpty
  · left
    simp only [resolve_seed_references, hemp, if_true] at h
    simp at h
    exact ⟨hemp, h.symm⟩
  · right
    have hef : s.seeds.isEmpty = false := by simpa using hemp
    simp only [resolve_seed_references, hef, Bool.false_eq_true, if_false] at h
    refine ⟨hef, ?_⟩
    cases hp2 : pass2Table (pass2WSRecord (aget (pass1 s.seeds).2 "workouts"))
        (pass1 s.seeds).1 "workout_sections" with
    | error e => rw [hp2] at h; exact absurd h (by simp)
    | ok seeds2 =>
        rw [hp2] at h
        dsimp only at h
        cases hp3 : pass2Table (pass2WERecord (aget (pass1 s.seeds).2 "workouts")
            (aget (pass1 s.seeds).2 "exercise_definitions")
            (match aget seeds2 "workout_sections" with
             | some w => w.records
             | none => []))
            seeds2 "workout_exercises" with
        | error e => rw [hp3] at h; exact absurd h (by simp)
        | ok seeds3 =>
            rw [hp3] at h
            simp at h
            exact ⟨seeds2, seeds3, rfl, hp3, h.symm⟩

theorem resolve_of_resolved {s out : RSchema}
    (h : resolve_seed_references s = .ok out) :
    resolve_seed_references out = .ok out := by
  rcases resolve_ok_inv h with ⟨hemp, hout⟩ | ⟨hnemp, seeds2, seeds3, h2, h3, hout⟩
  · subst hout
    simp [resolve_seed_references, hemp]
  · subst hout
    obtain ⟨hid, hws, hwe⟩ := resolved_seeds_invariants h2 h3
    have hsne : s.seeds ≠ [] := by
      intro hcon
      rw [hcon] at hnemp
      simp at hnemp
    have hne1 : (pass1 s.seeds).1 ≠ [] := by
      refine foldl_pass1Step_fst_ne_nil fourTables (s.seeds, []) ?_
      simpa using hsne
    have hne3 : seeds3 ≠ [] :=
      pass2Table_ne_nil h3 (pass2Table_ne_nil h2 hne1)
    have hef3 : seeds3.isEmpty = false := by
      cases hcase : seeds3 with
      | nil => exact absurd hcase hne3
      | cons a l => simp
    have hp1fix : (pass1 seeds3).1 = seeds3 := by
      refine foldl_pass1Step_fst_fix fourTables (seeds3, []) ?_
      intro t ht sd hsd
      exact pass1Table_fix (hid t ht sd hsd)
    have hwsfix : ∀ (lk : Option Lookup),
        pass2Table (pass2WSRecord lk) seeds3 "workout_sections" = .ok seeds3 := by
      intro lk
      refine pass2Table_fix ?_
      intro sd hsd r hr
      exact pass2WSRecord_fix (hws sd hsd r hr)
    have hwefix : ∀ (lk1 lk2 : Option Lookup) (ws : List Record),
        pass2Table (pass2WERecord lk1 lk2 ws) seeds3 "workout_exercises" = .ok seeds3 := by
      intro lk1 lk2 ws
      refine pass2Table_fix ?_
      intro sd hsd r hr
      obtain ⟨hw, he, hsw⟩ := hwe sd hsd r hr
      refine pass2WERecord_fix hw he ?_
      by_cases hsn : ahas r "section_name" = true
      · simp [hsn, hsw hsn]
      · have hf : ahas r "section_name" = false := by simpa using hsn
        simp [hf]
    show resolve_seed_references { s with seeds := seeds3 } = _
    simp only [resolve_seed_references, hef3, Bool.false_eq_true, if_false]
    rw [hp1fix, hwsfix]
    dsimp only
    rw [hwefix]

/-! ## Tracking a record's identifier through the resolver -/

theorem pass2Table_records_id {f : Record → Except String Record}
    {seeds seeds' : Seeds} {t : String} (h : pass2Table f seeds t = .ok seeds')
    (hpres : ∀ r r', f r = .ok r' → aget r' "id" = aget r "id") :
    ∀ sd, aget seeds t = some sd → ∃ sd', aget seeds' t = some sd' ∧
      ∀ i r, sd.records.get? i = some r →
        ∃ r', sd'.records.get? i = some r' ∧ aget r' "id" = aget r "id" := by
  rcases pass2Table_inv h with ⟨hg, he⟩ | ⟨sd0, recs, hg, hm, he⟩
  · intro sd hsd
    rw [hg] at hsd
    exact absurd hsd (by simp)
  · intro sd hsd
    rw [hg] at hsd
    cases hsd
    refine ⟨{ sd0 with records := recs }, by rw [he, aget_aset_self], ?_⟩
    intro i r hr
    obtain ⟨r', hr', hf⟩ := mapRecords_get? hm i r hr
    exact ⟨r', hr', hpres r r' hf⟩

theorem resolve_ok_record_id {s out : RSchema}
    (h : resolve_seed_references s = .ok out) :
    ∀ t ∈ fourTables, ∀ sd, aget s.seeds t = some sd →
      ∀ i r, sd.records.get? i = some r →
        ∃ sd', aget out.seeds t = some sd' ∧
          ∃ r', sd'.records.get? i = some r' ∧
            aget r' "id" = aget (assignId t sd.unique_key i r) "id" := by
  intro t ht sd hsd i r hr
  rcases resolve_ok_inv h with ⟨hemp, hout⟩ | ⟨hnemp, seeds2, seeds3, h2, h3, hout⟩
  · exfalso
    have : s.seeds = [] := by
      cases hc : s.seeds with
      | nil => rfl
      | cons a l => rw [hc] at hemp; simp at hemp
    rw [this] at hsd
    exact absurd hsd (by simp [aget])
  · have hseeds1 : aget (pass1 s.seeds).1 t =
        some (pass1Table t sd).1 := by
      rw [show (pass1 s.seeds).1 = (fourTables.foldl pass1Step (s.seeds, [])).1 from rfl]
      rw [foldl_pass1Step_aget_mem fourTables (s.seeds, []) t fourTables_nodup ht]
      simp [hsd]
    have hrec1 : (pass1Table t sd).1.records.get? i =
        some (assignId t sd.unique_key i r) := by
      simp only [pass1Table]
      have := pass1Loop_fst_get? t sd.unique_key sd.records 0 [] i r hr
      simpa using this
    have hout_seeds : out.seeds = seeds3 := by rw [hout]
    -- step through the two pass-2 tables depending on which table t is
    have hwspres : ∀ r r', pass2WSRecord (aget (pass1 s.seeds).2 "workouts") r = .ok r' →
        aget r' "id" = aget r "id" := fun r r' hf => pass2WSRecord_aget_id hf
    by_cases hws : t = "workout_sections"
    · subst hws
      obtain ⟨sd2, hsd2, hrec2⟩ := pass2Table_records_id h2 hwspres _ hseeds1
      obtain ⟨r2, hr2, hid2⟩ := hrec2 i _ hrec1
      have hsd3 : aget seeds3 "workout_sections" = some sd2 := by
        rw [pass2Table_aget_ne h3 (by decide)]
        exact hsd2
      exact ⟨sd2, by rw [hout_seeds]; exact hsd3, r2, hr2, hid2⟩
    · by_cases hwe : t = "workout_exercises"
      · subst hwe
        have hsd2 : aget seeds2 "workout_exercises" = some (pass1Table "workout_exercises" sd).1 := by
          rw [pass2Table_aget_ne h2 (by decide)]
          exact hseeds1
        obtain ⟨sd3, hsd3, hrec3⟩ := pass2Table_records_id h3
          (fun r r' hf => (pass2WERecord_post hf).2.2.2) _ hsd2
        obtain ⟨r3, hr3, hid3⟩ := hrec3 i _ hrec1
        exact ⟨sd3, by rw [hout_seeds]; exact hsd3, r3, hr3, hid3⟩
      · have hsd3 : aget seeds3 t = some (pass1Table t sd).1 := by
          rw [pass2Table_aget_ne h3 hwe, pass2Table_aget_ne h2 hws]
          exact hseeds1
        exact ⟨(pass1Table t sd).1, by rw [hout_seeds]; exact hsd3,
          assignId t sd.unique_key i r, hrec1, rfl⟩

/-! ## The frame of the resolver -/

theorem resolve_ok_frame {s out : RSchema}
    (h : resolve_seed_references s = .ok out) (t : String)
    (ht : t ∉ fourTables) : aget out.seeds t = aget s.seeds t ∧ out.rest = s.rest := by
  rcases resolve_ok_inv h with ⟨_, hout⟩ | ⟨_, seeds2, seeds3, h2, h3, hout⟩
  · rw [hout]
    exact ⟨rfl, rfl⟩
  · have hws : t ≠ "workout_sections" := fun hc => ht (by rw [hc]; decide)
    have hwe : t ≠ "workout_exercises" := fun hc => ht (by rw [hc]; decide)
    subst hout
    constructor
    · show aget seeds3 t = aget s.seeds t
      rw [pass2Table_aget_ne h3 hwe, pass2Table_aget_ne h2 hws]
      rw [show (pass1 s.seeds).1 = (fourTables.foldl pass1Step (s.seeds, [])).1 from rfl]
      exact foldl_pass1Step_aget_not_mem fourTables (s.seeds, []) t ht
    · rfl

/-! ## Composite-key lookup entries (Pass 1) -/

theorem addEntries_preserves_ahas (uk : UKey) (tbl : Lookup) (r : Record)
    (k : Val) (h : ahas tbl k = true) : ahas (addEntries uk tbl r) k = true := by
  cases uk with
  | noKey => exact h
  | single s =>
      simp only [addEntries]
      by_cases ht : pyTruthy (pyGet r s)
      · simp only [ht, if_true]
        exact ahas_of_ahas_aset _ _ _ _ h
      · simpa [ht]
  | multi cols =>
      simp only [addEntries]
      induction cols generalizing tbl with
      | nil => simpa
      | cons c rest ih =>
          simp only [List.foldl_cons]
          by_cases ht : pyTruthy (pyGet r c)
          · exact ih _ (by simp only [ht, if_true]; exact ahas_of_ahas_aset _ _ _ _ h)
          · exact ih _ (by simpa [ht])

theorem pass1Loop_snd_preserves_ahas (tname : String) (uk : UKey) :
    ∀ (rs : List Record) (i : Nat) (tbl : Lookup) (k : Val),
      ahas tbl k = true → ahas (pass1Loop tname uk i tbl rs).2 k = true := by
  intro rs
  induction rs with
  | nil => intro i tbl k h; simpa [pass1Loop]
  | cons r0 rest ih =>
      intro i tbl k h
      simp only [pass1Loop]
      exact ih (i + 1) _ k (addEntries_preserves_ahas uk tbl _ k h)

theorem addEntries_multi_ahas (cols : List String) (tbl : Lookup) (r : Record)
    (c : String) (hc : c ∈ cols) (ht : pyTruthy (pyGet r c) = true) :
    ahas (addEntries (.multi cols) tbl r)
      (.vstr (c ++ "=" ++ pyStr (pyGet r c))) = true := by
  simp only [addEntries]
  induction cols generalizing tbl with
  | nil => simp at hc
  | cons c0 rest ih =>
      simp only [List.foldl_cons]
      rcases List.mem_cons.mp hc with h0 | h0
      · subst h0
        refine addEntries_preserves_ahas (.multi rest) _ r _ ?_
        simp only [ht, if_true]
        exact ahas_aset_self _ _ _
      · by_cases ht0 : pyTruthy (pyGet r c0)
        · exact ih _ h0
        · exact ih _ h0

theorem pass1Loop_snd_multi_ahas (tname : String) (cols : List String) :
    ∀ (rs : List Record) (i : Nat) (tbl : Lookup) (j : Nat) (r : Record)
      (c : String), rs.get? j = some r → c ∈ cols →
      pyTruthy (pyGet (assignId tname (.multi cols) (i + j) r) c) = true →
      ahas (pass1Loop tname (.multi cols) i tbl rs).2
        (.vstr (c ++ "=" ++ pyStr (pyGet (assignId tname (.multi cols) (i + j) r) c))) = true := by
  intro rs
  induction rs with
  | nil => intro i tbl j r c hr; simp at hr
  | cons r0 rest ih =>
      intro i tbl j r c hr hc ht
      cases j with
      | zero =>
          simp at hr
          subst hr
          simp only [pass1Loop]
          refine pass1Loop_snd_preserves_ahas tname (.multi cols) rest (i + 1) _ _ ?_
          simpa using addEntries_multi_ahas cols tbl _ c hc (by simpa using ht)
      | succ j' =>
          simp at hr
          simp only [pass1Loop]
          have := ih (i + 1) (addEntries (.multi cols) tbl (assignId tname (.multi cols) i r0))
            j' r c (by simpa using hr) hc
          rw [show i + 1 + j' = i + (j' + 1) from by omega] at this
          exact this ht

/-! ## UUID format lemmas and pinned values

The pinned values check the SHA-1/UUIDv5 model against the standard SHA-1
test vectors and against `uuid.uuid5` outputs of CPython. -/

theorem uuidFormat_nibble (d : List Nat) :
    (uuidFormat d).data.get? 14 =
      some (hexDigit ((d.getD 6 0 % 16 + 80) / 16 % 16)) := rfl

theorem uuid5_version_nibble (nsB : List Nat) (name : String) :
    (uuid5 nsB name).data.get? 14 = some '5' := by
  have h0 := uuidFormat_nibble (sha1 (nsB ++ strBytes name))
  have h : ((sha1 (nsB ++ strBytes name)).getD 6 0 % 16 + 80) / 16 % 16 = 5 := by
    omega
  rw [show uuid5 nsB name = uuidFormat (sha1 (nsB ++ strBytes name)) from rfl, h0, h]
  rfl

theorem generate_deterministic_uuid_version_nibble (ns name : String) :
    (generate_deterministic_uuid ns name).data.get? 14 = some '5' :=
  uuid5_version_nibble SEED_NAMESPACE_BYTES (ns ++ ":" ++ name)

theorem default_clause_ne_notnull (d : String) : "DEFAULT " ++ d ≠ "NOT NULL" := by
  intro h
  have hdata := congrArg String.data h
  rw [String.data_append] at hdata
  have h1 : "DEFAULT ".data = ['D', 'E', 'F', 'A', 'U', 'L', 'T', ' '] := rfl
  have h2 : "NOT NULL".data = ['N', 'O', 'T', ' ', 'N', 'U', 'L', 'L'] := rfl
  rw [h1, h2] at hdata
  simp at hdata

set_option maxRecDepth 40000 in
theorem sha1_pinned_abc :
    String.mk ((sha1 (strBytes "abc")).flatMap hexByte) =
      "a9993e364706816aba3e25717850c26c9cd0d89d" := by rfl

set_option maxRecDepth 40000 in
theorem sha1_pinned_empty :
    String.mk ((sha1 (strBytes "")).flatMap hexByte) =
      "da39a3ee5e6b4b0d3255bfef95601890afd80709" := by rfl

set_option maxRecDepth 40000 in
theorem uuid_pinned_workouts_index :
    generate_deterministic_uuid "workouts" "0" =
      "b0574d2c-a0a8-55f1-a40d-f5959b162867" := by rfl

set_option maxRecDepth 40000 in
theorem uuid_pinned_workouts_legday :
    generate_deterministic_uuid "workouts" "Leg Day" =
      "7ef9089e-9e85-5147-85ed-e169fde03c96" := by rfl

/-! ## Claims -/

/-- C3: the resolver is deterministic and idempotent — for every input
schema, resolving the resolved result changes nothing, so running
`resolve_seed_references` twice produces output identical to running it
once (and a run that raises, raises identically). -/
theorem claim3_resolver_idempotent (s : RSchema) :
    (resolve_seed_references s).bind resolve_seed_references =
      resolve_seed_references s := by
  cases h : resolve_seed_references s with
  | error e => rfl
  | ok out =>
      show resolve_seed_references out = Except.ok out
      exact resolve_of_resolved h

set_option maxRecDepth 100000 in
/-- Witness for C3 at the §8 scenario schema. -/
theorem claim3_witness :
    (resolve_seed_references scenarioSchema).bind resolve_seed_references =
      resolve_seed_references scenarioSchema :=
  claim3_resolver_idempotent scenarioSchema

/-- C10: `resolve_seed_references` assigns identifiers, builds lookups and
substitutes references only for the four hardcoded tables `workouts`,
`exercise_definitions`, `workout_sections`, `workout_exercises`; the seed
definition of every other table (and the rest of the schema) is returned
unchanged. -/
theorem claim10_resolver_frame {s out : RSchema}
    (h : resolve_seed_references s = .ok out) (t : String)
    (ht : t ∉ fourTables) :
    aget out.seeds t = aget s.seeds t ∧ out.rest = s.rest :=
  resolve_ok_frame h t ht

set_option maxRecDepth 40000 in
/-- Witness for C10: on `extraTableSchema` the `habits` seed definition —
records (no identifier assigned), `references`, pseudo-field `habit_name`
intact — comes back untouched while `workouts` is processed. -/
theorem claim10_witness :
    aget extraTableResolved.seeds "habits" = aget extraTableSchema.seeds "habits" ∧
      extraTableResolved.rest = extraTableSchema.rest :=
  @claim10_resolver_frame extraTableSchema extraTableResolved
    (by rfl) "habits" (by decide)

set_option maxRecDepth 100000 in
/-- Counterexample to C1: in the §8 scenario (`workouts` with the
single-column `unique_key "name"` and record `{name: "Leg Day"}`), the
resolver assigns `uuid5(NS, "workouts:0")` — derived from the record's
index, not from the natural key — which differs from
`uuid5(NS, "workouts:Leg Day")`, the identifier C1 prescribes. -/
theorem claim1_counterexample :
    (resolve_seed_references scenarioSchema).map
        (fun out => (aget out.seeds "workouts").map
          (fun sd => sd.records.map (fun r => aget r "id")))
      = .ok (some [some (.vstr (generate_deterministic_uuid "workouts" "0"))]) ∧
    generate_deterministic_uuid "workouts" "0" =
      "b0574d2c-a0a8-55f1-a40d-f5959b162867" ∧
    generate_deterministic_uuid "workouts" "Leg Day" =
      "7ef9089e-9e85-5147-85ed-e169fde03c96" ∧
    generate_deterministic_uuid "workouts" "0" ≠
      generate_deterministic_uuid "workouts" "Leg Day" := by
  refine ⟨by rfl, uuid_pinned_workouts_index, uuid_pinned_workouts_legday, ?_⟩
  intro h
  rw [uuid_pinned_workouts_index, uuid_pinned_workouts_legday] at h
  exact absurd h (by decide)

/-- C1 (amended): the identifier the resolver assigns to a record without
an explicit `id` is `derivedRecordId`: a UUIDv5 over the namespace
`11111111-1111-1111-1111-111111111111` of `"{table}:{key}"` where, for a
list-valued `unique_key`, `key` is the `'|'`-joined tuple of natural-key
values, but for a single-column (or absent) `unique_key`, `key` is the
record's zero-based index; a record that supplies an explicit `id` keeps it
unchanged. -/
theorem claim1_amended_id_derivation {s out : RSchema}
    (h : resolve_seed_references s = .ok out) (t : String)
    (ht : t ∈ fourTables) (sd : SeedDef) (hsd : aget s.seeds t = some sd)
    (i : Nat) (r : Record) (hr : sd.records.get? i = some r) :
    ∃ sd', aget out.seeds t = some sd' ∧
      ∃ r', sd'.records.get? i = some r' ∧
        aget r' "id" =
          (if ahas r "id" = true then aget r "id"
           else some (.vstr (derivedRecordId t sd.unique_key i r))) := by
  obtain ⟨sd', hsd', r', hr', hid⟩ := resolve_ok_record_id h t ht sd hsd i r hr
  exact ⟨sd', hsd', r', hr', by rw [hid, assignId_aget_id]⟩

set_option maxRecDepth 100000 in
/-- Witness for C1 (amended), at the §8 scenario's `workouts` record. -/
theorem claim1_witness :
    ∃ sd', aget scenarioResolved.seeds "workouts" = some sd' ∧
      ∃ r', sd'.records.get? 0 = some r' ∧
        aget r' "id" =
          (if ahas ([("name", Val.vstr "Leg Day")] : Record) "id" = true
           then aget ([("name", Val.vstr "Leg Day")] : Record) "id"
           else some (.vstr (derivedRecordId "workouts" (.single "name") 0
             [("name", Val.vstr "Leg Day")]))) :=
  @claim1_amended_id_derivation scenarioSchema scenarioResolved (by rfl)
    "workouts" (by decide) legDaySeedDef (by rfl) 0
    [("name", Val.vstr "Leg Day")] (by rfl)

set_option maxRecDepth 100000 in
/-- Counterexample to C2: in the §8 scenario, `resolve_seed_references`
never sets `workout_id` on the `workout_sections` record (the single-column
Pass-1 lookup stores the raw key `"Leg Day"`, which Pass 2's
`startswith('name=')` scan never matches) and deletes `workout_name`;
and the seed emitter resolves `workout_id` to the identifier derived for
`("workouts", index 0)`, which differs from the identifier derived for
`("workouts", "Leg Day")`. -/
theorem claim2_counterexample :
    (resolve_seed_references scenarioSchema).map
        (fun out => (aget out.seeds "workout_sections").map
          (fun sd => sd.records.map
            (fun r => (aget r "workout_id", ahas r "workout_name"))))
      = .ok (some [(none, false)]) ∧
    seedCell (sectionsTableDef.fields.getD []) sectionsRefs
        (buildSeedLookups scenarioSchema.seeds)
        [("workout_name", .vstr "Leg Day"), ("name", .vstr "Warmup")] "workout_id"
      = "'" ++ generate_deterministic_uuid "workouts" "0" ++ "'" ∧
    generate_deterministic_uuid "workouts" "0" ≠
      generate_deterministic_uuid "workouts" "Leg Day" := by
  refine ⟨by rfl, by rfl, ?_⟩
  intro h
  rw [uuid_pinned_workouts_index, uuid_pinned_workouts_legday] at h
  exact absurd h (by decide)

set_option maxRecDepth 100000 in
/-- C2 (amended): in the §8 scenario the emitted INSERT for
`workout_sections` has columns `(id, workout_id, name)` — a `workout_id`
column and no `workout_name` column — and its `workout_id` value is the
quoted identifier the emitter derived for the `workouts` record at index 0
(`uuid5(NS, "workouts:0")`), while the standalone resolver leaves the
resolved `workout_sections` record with no `workout_id` at all. -/
theorem claim2_amended :
    insertCols (sectionsTableDef.fields.getD []) sectionsRefs
        [("workout_name", .vstr "Leg Day"), ("name", .vstr "Warmup")]
      = ["id", "workout_id", "name"] ∧
    seedCell (sectionsTableDef.fields.getD []) sectionsRefs
        (buildSeedLookups scenarioSchema.seeds)
        [("workout_name", .vstr "Leg Day"), ("name", .vstr "Warmup")] "workout_id"
      = "'" ++ generate_deterministic_uuid "workouts" "0" ++ "'" ∧
    (resolve_seed_references scenarioSchema).map
        (fun out => (aget out.seeds "workout_sections").map (fun sd => sd.records))
      = .ok (some [[("name", .vstr "Warmup"),
                    ("id", .vstr (generate_deterministic_uuid "workout_sections" "0"))]]) :=
  ⟨by rfl, by rfl, by rfl⟩

set_option maxRecDepth 100000 in
/-- Counterexample to C5: for the composite key `(name, category)` and
record `{name: "x", category: "y"}`, Pass 1 builds exactly two lookup
entries — one per individual component column — and no combined-key entry,
despite the inline comment "Store both individual keys and combined keys";
the `generate_seeds` first pass builds the same two single-column keys. -/
theorem claim5_counterexample :
    (pass1Table "workouts" compositeSeedDef).2 =
      [(.vstr "name=x", .vstr (generate_deterministic_uuid "workouts" "x|y")),
       (.vstr "category=y", .vstr (generate_deterministic_uuid "workouts" "x|y"))] ∧
    seedLookupLoop "workouts" compositeSeedDef.unique_key 0 [] compositeSeedDef.records =
      [("name=x", .vstr (generate_deterministic_uuid "workouts" "0")),
       ("category=y", .vstr (generate_deterministic_uuid "workouts" "0"))] :=
  ⟨by rfl, by rfl⟩

/-- C5 (amended): Pass 1 of the resolver builds, for a record under a
list-valued `unique_key`, one lookup entry per individual component column
whose value is truthy (keyed `"{col}={value}"`), so a dependent reference
can resolve via column `a` alone or column `b` alone; no combined-key
entry is built. -/
theorem claim5_amended_component_lookups (tname : String) (sd : SeedDef)
    (cols : List String) (hui : sd.unique_key = .multi cols) (j : Nat)
    (r : Record) (hr : sd.records.get? j = some r) (c : String) (hc : c ∈ cols)
    (ht : pyTruthy (pyGet (assignId tname (.multi cols) j r) c) = true) :
    ahas (pass1Table tname sd).2
      (.vstr (c ++ "=" ++ pyStr (pyGet (assignId tname (.multi cols) j r) c))) = true := by
  simp only [pass1Table, hui]
  have h0 := pass1Loop_snd_multi_ahas tname cols sd.records 0 [] j r c hr hc
  rw [Nat.zero_add] at h0
  exact h0 ht

set_option maxRecDepth 100000 in
/-- Witness for C5 (amended): the composite-keyed record is resolvable
via `name` alone. -/
theorem claim5_witness :
    ahas (pass1Table "workouts" compositeSeedDef).2
      (.vstr ("name" ++ "=" ++ pyStr (pyGet (assignId "workouts"
        (.multi ["name", "category"]) 0
        [("name", Val.vstr "x"), ("category", Val.vstr "y")]) "name"))) = true :=
  claim5_amended_component_lookups "workouts" compositeSeedDef
    ["name", "category"] rfl 0 [("name", Val.vstr "x"), ("category", Val.vstr "y")]
    (by rfl) "name" (by decide) (by rfl)

set_option maxRecDepth 100000 in
/-- Counterexample to C6: in `sectionOnlySchema` the single
`workout_exercises` record carries the declared reference pseudo-field
`section_name`, yet after resolution completes the pseudo-field is still
present (its deletion is guarded by `workout_id` also being present). -/
theorem claim6_counterexample :
    (resolve_seed_references sectionOnlySchema).map
        (fun out => (aget out.seeds "workout_exercises").map
          (fun sd => sd.records.map (fun r => ahas r "section_name")))
      = .ok (some [true]) := by rfl

/-- C6 (amended): after Pass 2, `workout_name` is always deleted from
`workout_sections` and `workout_exercises` records and `exercise_name`
from `workout_exercises` records, whether or not resolution succeeded;
but `section_name` is deleted only when the record also carries a
`workout_id` at the time of the check — a surviving `section_name`
implies the record has no `workout_id`.  (Pseudo-fields with any other
declared name are not processed at all: the resolver ignores the
`references` mapping and hardcodes these three field names.) -/
theorem claim6_amended_pseudo_field_deletion {s out : RSchema}
    (h : resolve_seed_references s = .ok out) :
    (∀ sd, aget out.seeds "workout_sections" = some sd →
       ∀ r ∈ sd.records, ahas r "workout_name" = false) ∧
    (∀ sd, aget out.seeds "workout_exercises" = some sd →
       ∀ r ∈ sd.records, ahas r "workout_name" = false ∧
         ahas r "exercise_name" = false ∧
         (ahas r "section_name" = true → ahas r "workout_id" = false)) := by
  rcases resolve_ok_inv h with ⟨hemp, hout⟩ | ⟨_, seeds2, seeds3, h2, h3, hout⟩
  · have hnil : s.seeds = [] := by
      cases hc : s.seeds with
      | nil => rfl
      | cons a l => rw [hc] at hemp; simp at hemp
    constructor
    · intro sd hsd
      rw [hout, hnil] at hsd
      exact absurd hsd (by simp [aget])
    · intro sd hsd
      rw [hout, hnil] at hsd
      exact absurd hsd (by simp [aget])
  · subst hout
    obtain ⟨_, hws, hwe⟩ := resolved_seeds_invariants h2 h3
    exact ⟨hws, hwe⟩

set_option maxRecDepth 100000 in
/-- Witness for C6 (amended), instantiated at the resolved
`sectionOnlySchema` record (which retains `section_name` and indeed has no
`workout_id`). -/
theorem claim6_witness :
    ahas sectionOnlyResolvedRecord "workout_name" = false ∧
      ahas sectionOnlyResolvedRecord "exercise_name" = false ∧
      (ahas sectionOnlyResolvedRecord "section_name" = true →
        ahas sectionOnlyResolvedRecord "workout_id" = false) :=
  (@claim6_amended_pseudo_field_deletion sectionOnlySchema sectionOnlyResolved
      (by rfl)).2
    { unique_key := .noKey, records := [sectionOnlyResolvedRecord],
      references := sectionOnlySeedDef.references }
    (by rfl) sectionOnlyResolvedRecord (by simp)

/-- Counterexample to C7: `validate_schema` is not fully aggregating.
On a schema missing both `tables` and `type_mappings` it returns after the
`tables` violation alone — the `type_mappings` violation is never
collected; and a seed record with two unknown columns (`bogus1`, `bogus2`)
yields a single violation (the per-record loop `break`s at the first). -/
theorem claim7_counterexample :
    validate_schema noTablesSchema = .ok ["Missing 'tables' field"] ∧
    validate_schema twoBadColsSchema =
      .ok ["Seed 'habits': column 'bogus1' not in table schema"] :=
  ⟨by rfl, by rfl⟩

/-- C7 (amended): validation collects violations into one list, except
that it returns immediately after reporting a missing `tables` key (so a
simultaneously missing `type_mappings` is not reported, and symmetrically)
and reports at most one unknown-column violation per seed record; whenever
the returned list is non-empty, `main` aborts with a validation failure
and generates nothing. -/
theorem claim7_amended_validation :
    (∀ s : RawSchema, s.tables = none →
       validate_schema s = .ok ((if s.version.isSome then []
         else ["Missing 'version' field"]) ++ ["Missing 'tables' field"])) ∧
    (∀ (s : RawSchema) (ga : String) (errs : List String),
       validate_schema s = .ok errs → errs ≠ [] →
       mainRun s ga = .validationFailed errs) := by
  constructor
  · intro s hs
    simp [validate_schema, hs]
  · intro s ga errs hv hne
    simp only [mainRun, hv]
    have : errs.isEmpty = false := by
      cases errs with
      | nil => exact absurd rfl hne
      | cons a l => rfl
    simp [this]

/-- Witness for C7 (amended): both conjuncts at the concrete schemas. -/
theorem claim7_witness :
    validate_schema noTablesSchema =
      .ok ((if noTablesSchema.version.isSome then []
        else ["Missing 'version' field"]) ++ ["Missing 'tables' field"]) ∧
    mainRun twoBadColsSchema "2026-01-01" =
      .validationFailed ["Seed 'habits': column 'bogus1' not in table schema"] :=
  ⟨claim7_amended_validation.1 noTablesSchema rfl,
   claim7_amended_validation.2 twoBadColsSchema "2026-01-01"
     ["Seed 'habits': column 'bogus1' not in table schema"] (by rfl) (by decide)⟩

/-- C8: a field with `nullable=true` renders as `Option<...>` in the Rust
struct line, as an optional (`?`) property in the TypeScript interface
line, and without a `NOT NULL` constraint in its SQL column; a field with
`primary=true` renders `PRIMARY KEY` and never additionally `NOT NULL`. -/
theorem claim8_nullable_primary_rendering
    (tms : List (String × TypeMapping)) (fname : String) (fd : FieldDef) :
    (fd.nullable = true →
       rustFieldLine tms fname fd =
         "    pub " ++ rust_field_name fname ++ ": " ++
           ("Option<" ++ tmRust tms fd ++ ">") ++ "," ∧
       tsFieldLine tms fname fd = "  " ++ fname ++ "?" ++ ": " ++ tmTs tms fd ++ ";" ∧
       "NOT NULL" ∉ sqlConstraints fd) ∧
    (fd.primary = true →
       "PRIMARY KEY" ∈ sqlConstraints fd ∧ "NOT NULL" ∉ sqlConstraints fd) := by
  have hnn : "NOT NULL" ∉ (match fd.default with
      | some d => ["DEFAULT " ++ d]
      | none => ([] : List String)) := by
    cases hd : fd.default with
    | none => simp
    | some d =>
        simp only [List.mem_singleton]
        intro hcon
        exact default_clause_ne_notnull d hcon.symm
  constructor
  · intro hn
    refine ⟨by simp [rustFieldLine, hn], by simp [tsFieldLine, hn], ?_⟩
    simp only [sqlConstraints, hn]
    intro hmem
    rcases List.mem_append.mp hmem with h1 | h2
    · rcases List.mem_append.mp h1 with h1a | h1b
      · by_cases hp : fd.primary
        · simp [hp] at h1a
        · simp [hp] at h1a
      · simp at h1b
    · exact hnn h2
  · intro hp
    constructor
    · simp [sqlConstraints, hp]
    · simp only [sqlConstraints, hp]
      intro hmem
      rcases List.mem_append.mp hmem with h1 | h2
      · rcases List.mem_append.mp h1 with h1a | h1b
        · simp at h1a
        · simp at h1b
      · exact hnn h2

/-- Witness for C8 at a concrete nullable primary field named `type`
(also exercising the Rust keyword escape). -/
theorem claim8_witness :
    (true = true →
       rustFieldLine [("UUID", (⟨"Uuid", "string", "UUID"⟩ : TypeMapping))] "type"
           (⟨some "UUID", true, true, some "gen_random_uuid()"⟩ : FieldDef) =
         "    pub " ++ rust_field_name "type" ++ ": " ++
           ("Option<" ++ tmRust [("UUID", (⟨"Uuid", "string", "UUID"⟩ : TypeMapping))]
             (⟨some "UUID", true, true, some "gen_random_uuid()"⟩ : FieldDef) ++ ">") ++ "," ∧
       tsFieldLine [("UUID", (⟨"Uuid", "string", "UUID"⟩ : TypeMapping))] "type"
           (⟨some "UUID", true, true, some "gen_random_uuid()"⟩ : FieldDef) =
         "  " ++ "type" ++ "?" ++ ": " ++
           tmTs [("UUID", (⟨"Uuid", "string", "UUID"⟩ : TypeMapping))]
             (⟨some "UUID", true, true, some "gen_random_uuid()"⟩ : FieldDef) ++ ";" ∧
       "NOT NULL" ∉ sqlConstraints
         (⟨some "UUID", true, true, some "gen_random_uuid()"⟩ : FieldDef)) ∧
    (true = true →
       "PRIMARY KEY" ∈ sqlConstraints
         (⟨some "UUID", true, true, some "gen_random_uuid()"⟩ : FieldDef) ∧
       "NOT NULL" ∉ sqlConstraints
         (⟨some "UUID", true, true, some "gen_random_uuid()"⟩ : FieldDef)) :=
  claim8_nullable_primary_rendering
    [("UUID", (⟨"Uuid", "string", "UUID"⟩ : TypeMapping))] "type"
    (⟨some "UUID", true, true, some "gen_random_uuid()"⟩ : FieldDef)

/-- C4: in the seed emitter, for every record column that is the target of
a declared reference, when the reference cannot be resolved — falsy
natural-key value, referenced table absent from the lookups, or the lookup
key missing — the emitted value is the literal `NULL`; no exception is
raised and, whenever validation passes, the run still generates its
output (reference misses never abort generation). -/
theorem claim4_unresolvable_reference_null :
    (∀ (tf : List (String × FieldDef)) (refs : List (String × RefDef))
       (lks : List (String × List (String × Val))) (r : Record) (col : String)
       (rp : String × RefDef),
       refs.find? (fun p => p.2.target_column = col) = some rp →
       col ≠ "id" → col ≠ "created_at" → col ≠ "updated_at" →
       (∀ tbl, aget lks rp.2.ref_table = some tbl →
          pyTruthy (pyGet r rp.1) = false ∨
          aget tbl (rp.2.ref_column ++ "=" ++ pyStr (pyGet r rp.1)) = none) →
       seedCell tf refs lks r col = "NULL") ∧
    (∀ (s : RawSchema) (ga : String), validate_schema s = .ok [] →
       mainRun s ga = .generated (generate_seeds (s.version.getD "0.0.0") ga
         (s.tables.getD []) s.seeds)) := by
  constructor
  · intro tf refs lks r col rp hfind hid hca hua hmiss
    simp only [seedCell, hid, hca, hua, hfind, if_false, Bool.or_eq_true,
      decide_eq_true_eq]
    rw [if_neg (by simp : ¬(False ∨ False))]
    cases htbl : aget lks rp.2.ref_table with
    | none => simp [htbl]
    | some tbl =>
        rcases hmiss tbl htbl with hfalse | hnone
        · simp [htbl, hfalse]
        · simp [htbl, hnone]
  · intro s ga hv
    simp [mainRun, hv]

set_option maxRecDepth 100000 in
/-- Witness for C4: the `workout_name: "Nonexistent"` reference misses the
`workouts` lookup, the emitted `workout_id` cell is `NULL`, and the run on
that schema still generates. -/
theorem claim4_witness :
    seedCell (sectionsTableDef.fields.getD []) sectionsRefs
        (buildSeedLookups missingRefRawSchema.seeds)
        [("workout_name", .vstr "Nonexistent"), ("name", .vstr "Warmup")]
        "workout_id" = "NULL" ∧
    mainRun missingRefRawSchema "2026-01-01" =
      .generated (generate_seeds (missingRefRawSchema.version.getD "0.0.0")
        "2026-01-01" (missingRefRawSchema.tables.getD []) missingRefRawSchema.seeds) := by
  constructor
  · refine claim4_unresolvable_reference_null.1
      (sectionsTableDef.fields.getD []) sectionsRefs
      (buildSeedLookups missingRefRawSchema.seeds)
      [("workout_name", .vstr "Nonexistent"), ("name", .vstr "Warmup")]
      "workout_id" ("workout_name", (⟨"workouts", "name", "workout_id"⟩ : RefDef))
      (by rfl) (by decide) (by decide) (by decide) ?_
    intro tbl htbl
    have htbl' : tbl = [("name=Leg Day",
        Val.vstr "b0574d2c-a0a8-55f1-a40d-f5959b162867")] := by
      have hev : aget (buildSeedLookups missingRefRawSchema.seeds) "workouts" =
          some [("name=Leg Day", Val.vstr "b0574d2c-a0a8-55f1-a40d-f5959b162867")] := by
        rfl
      rw [hev] at htbl
      exact (Option.some.inj htbl).symm
    right
    rw [htbl']
    rfl
  · exact claim4_unresolvable_reference_null.2 missingRefRawSchema "2026-01-01" (by rfl)

set_option maxRecDepth 100000 in
/-- C9: for a seed record without an explicit `id`, the emitted INSERT
uses the database-side expression `gen_random_uuid()` verbatim as the id
value, while the emitter's Pass-1 lookup stores the deterministically
derived UUID for the same record; a dependent record whose reference
resolves to that lookup entry therefore emits the derived UUID as its
foreign-key value — an identifier whose version nibble is `'5'`, which no
version-4 identifier generated by the database's `gen_random_uuid()` can
equal. -/
theorem claim9_db_id_vs_lookup_id
    (tf : List (String × FieldDef)) (refs : List (String × RefDef))
    (lks : List (String × List (String × Val))) (tname : String) (i : Nat)
    (r : Record) (h : aget r "id" = none) :
    seedCell tf refs lks r "id" = "gen_random_uuid()" ∧
    seedRecordId tname i r = .vstr (generate_deterministic_uuid tname (toString i)) ∧
    (∀ (cr : Record) (col : String) (rp : String × RefDef)
       (tbl : List (String × Val)),
       refs.find? (fun p => p.2.target_column = col) = some rp →
       col ≠ "id" → col ≠ "created_at" → col ≠ "updated_at" →
       pyTruthy (pyGet cr rp.1) = true →
       aget lks rp.2.ref_table = some tbl →
       aget tbl (rp.2.ref_column ++ "=" ++ pyStr (pyGet cr rp.1)) =
         some (seedRecordId tname i r) →
       seedCell tf refs lks cr col =
         "'" ++ pyReplace (generate_deterministic_uuid tname (toString i)) "'" "''" ++ "'") ∧
    (generate_deterministic_uuid tname (toString i)).data.get? 14 = some '5' ∧
    (∀ dbid : String, dbid.data.get? 14 = some '4' →
       dbid ≠ generate_deterministic_uuid tname (toString i)) := by
  have hderived : seedRecordId tname i r =
      .vstr (generate_deterministic_uuid tname (toString i)) := by
    simp [seedRecordId, pyGet, h, pyTruthy]
  refine ⟨?_, hderived, ?_, generate_deterministic_uuid_version_nibble tname (toString i), ?_⟩
  · simp [seedCell, pyGet, h]
  · intro cr col rp tbl hfind hid hca hua htruthy htbl hkey
    simp only [seedCell, hid, hca, hua, hfind, if_false, Bool.or_eq_true,
      decide_eq_true_eq]
    rw [if_neg (by simp : ¬(False ∨ False))]
    rw [htbl]
    dsimp only
    rw [if_pos htruthy]
    rw [hkey]
    dsimp only
    rw [hderived]
    rfl
  · intro dbid h4 heq
    have h5 := generate_deterministic_uuid_version_nibble tname (toString i)
    rw [← heq] at h5
    rw [h4] at h5
    exact absurd (Option.some.inj h5) (by decide)

set_option maxRecDepth 100000 in
/-- Witness for C9, at the §8 scenario: the `workouts` INSERT emits
`gen_random_uuid()` for `id`, the lookup stores
`uuid5(NS, "workouts:0")`, and the dependent `workout_sections` row emits
that derived identifier as `workout_id`. -/
theorem claim9_witness :
    seedCell (sectionsTableDef.fields.getD []) sectionsRefs
        (buildSeedLookups scenarioSchema.seeds)
        [("name", Val.vstr "Leg Day")] "id" = "gen_random_uuid()" ∧
    seedRecordId "workouts" 0 [("name", Val.vstr "Leg Day")] =
      .vstr (generate_deterministic_uuid "workouts" (toString 0)) ∧
    seedCell (sectionsTableDef.fields.getD []) sectionsRefs
        (buildSeedLookups scenarioSchema.seeds)
        [("workout_name", Val.vstr "Leg Day"), ("name", Val.vstr "Warmup")]
        "workout_id"
      = "'" ++ pyReplace (generate_deterministic_uuid "workouts" (toString 0))
          "'" "''" ++ "'" ∧
    (generate_deterministic_uuid "workouts" (toString 0)).data.get? 14 = some '5' := by
  obtain ⟨h1, h2, h3, h4, _⟩ := claim9_db_id_vs_lookup_id
    (sectionsTableDef.fields.getD []) sectionsRefs
    (buildSeedLookups scenarioSchema.seeds)
    "workouts" 0 [("name", Val.vstr "Leg Day")] (by rfl)
  refine ⟨h1, h2, ?_, h4⟩
  exact h3 [("workout_name", Val.vstr "Leg Day"), ("name", Val.vstr "Warmup")]
    "workout_id" ("workout_name", (⟨"workouts", "name", "workout_id"⟩ : RefDef))
    [("name=Leg Day", Val.vstr "b0574d2c-a0a8-55f1-a40d-f5959b162867")]
    (by rfl) (by decide) (by decide) (by decide) (by rfl) (by rfl) (by rfl)

end PassionOS

